import Mathlib

/-!
Formal model of the TerraClimate-1001Genome extraction pipeline, a shallow
embedding of `spatial_index.py`, `extract.py`, `transform.py` and `main.py`.

Modelling conventions:
- grid coordinates and climate values are rationals (machine floating point
  is not modelled; the inputs of interest are exact decimals);
- a Python dict is an association list with insert-or-update semantics
  (insertion order preserved, updates in place), matching dict iteration
  order;
- the remote NetCDF source of one variable is a `GridData`: a time axis of
  (year, month) labels plus a total value function laid out (time, lat, lon)
  as in the TerraClimate aggregated files;
- fallible operations return `Except String`.
-/

namespace TerraClimate

/-- Spatial matching tolerance from `config.py`: `SPATIAL_TOLERANCE = 1/48`. -/
def SPATIAL_TOLERANCE : ℚ := 1/48

/-- Indices of grid values within `tol` of `x`, in increasing order: models
`np.where(np.abs(grid - x) < tolerance)[0]` in `find_nearest_grid_cell`
(`spatial_index.py` lines 80-84). -/
def candidateIndices (grid : List ℚ) (x tol : ℚ) : List Nat :=
  (List.range grid.length).filter (fun i => |grid.getD i 0 - x| < tol)

/-- First position attaining the minimum of `f` over a list of indices:
models `candidates[np.argmin(np.abs(grid[candidates] - x))]`
(`np.argmin` returns the first index attaining the minimum). -/
def argminFirst (f : Nat → ℚ) : List Nat → Option Nat
  | [] => none
  | i :: rest =>
    match argminFirst f rest with
    | none => some i
    | some m => if f m < f i then some m else some i

/-- Model of `find_nearest_grid_cell` (`spatial_index.py` lines 62-97): collect
the per-axis candidates within tolerance; if either axis has none return
`none`; if several candidates exist on some axis take the per-axis argmin of
the absolute difference, otherwise the unique candidate of each axis. -/
def find_nearest_grid_cell (lat lon : ℚ) (gridLats gridLons : List ℚ)
    (tol : ℚ) : Option (Nat × Nat) :=
  let latIndices := candidateIndices gridLats lat tol
  let lonIndices := candidateIndices gridLons lon tol
  if latIndices.length = 0 ∨ lonIndices.length = 0 then none
  else if 1 < latIndices.length ∨ 1 < lonIndices.length then
    match argminFirst (fun i => |gridLats.getD i 0 - lat|) latIndices,
          argminFirst (fun j => |gridLons.getD j 0 - lon|) lonIndices with
    | some r, some c => some (r, c)
    | _, _ => none
  else some (latIndices.headD 0, lonIndices.headD 0)

/-- One raw row of `availableplantsforclimate.csv`: an id with possibly
missing coordinates. -/
structure RawAccession where
  id : String
  latitude : Option ℚ
  longitude : Option ℚ
deriving DecidableEq, Repr

/-- One cleaned catalog row. -/
structure Accession where
  id : String
  latitude : ℚ
  longitude : ℚ
deriving DecidableEq, Repr

/-- Model of `load_accessions` (`spatial_index.py` lines 17-44):
`df.dropna(subset=['latitude', 'longitude'])` keeps exactly the rows with
both coordinates present; duplicate ids are neither checked nor dropped. -/
def load_accessions (rows : List RawAccession) : List Accession :=
  rows.filterMap (fun r =>
    match r.latitude, r.longitude with
    | some la, some lo => some { id := r.id, latitude := la, longitude := lo }
    | _, _ => none)

/-- The spatial index: Python dict from accession id to (lat index, lon index),
as an insertion-ordered association list. -/
abbrev SpatialIndexT := List (String × Nat × Nat)

/-- Python dict assignment `d[k] = v`: update in place when the key is present
(keeping its position), else append at the end. -/
def dictInsert (k : String) (v : Nat × Nat) : SpatialIndexT → SpatialIndexT
  | [] => [(k, v)]
  | p :: rest => if p.1 = k then (k, v) :: rest else p :: dictInsert k v rest

/-- The per-row loop of `build_spatial_index` (`spatial_index.py` lines
139-153): a matched row is written to the dict, an unmatched row's id is
appended to `failed_accessions`; the loop always continues to the next row. -/
def buildIndexLoop (gridLats gridLons : List ℚ) (tol : ℚ) :
    List Accession → SpatialIndexT × List String → SpatialIndexT × List String
  | [], acc => acc
  | row :: rest, acc =>
    match find_nearest_grid_cell row.latitude row.longitude gridLats gridLons tol with
    | some cell =>
      buildIndexLoop gridLats gridLons tol rest (dictInsert row.id cell acc.1, acc.2)
    | none =>
      buildIndexLoop gridLats gridLons tol rest (acc.1, acc.2 ++ [row.id])

/-- The cache-free core of `build_spatial_index`: the dict and the failure
list built from an empty start. -/
def buildIndexCore (gridLats gridLons : List ℚ) (tol : ℚ)
    (catalog : List Accession) : SpatialIndexT × List String :=
  buildIndexLoop gridLats gridLons tol catalog ([], [])

/-- Model of `build_spatial_index` (`spatial_index.py` lines 100-167) with the
cache file passed explicitly: `cache` is the content of
`cache/spatial_index.pkl` (`none` = file absent).  With `use_cache` and a
present cache the pickle is loaded and returned unchanged; otherwise the index
is built from the catalog, and written to the cache only when `use_cache` is
set.  `pickle.dump` followed by `pickle.load` of a dict yields an equal dict
and is modelled as the identity.  Returns the index together with the cache
content after the call. -/
def build_spatial_index (useCache : Bool) (cache : Option SpatialIndexT)
    (catalog : List Accession) (gridLats gridLons : List ℚ) (tol : ℚ) :
    SpatialIndexT × Option SpatialIndexT :=
  match useCache, cache with
  | true, some idx => (idx, some idx)
  | true, none =>
    ((buildIndexCore gridLats gridLons tol catalog).1,
      some (buildIndexCore gridLats gridLons tol catalog).1)
  | false, c => ((buildIndexCore gridLats gridLons tol catalog).1, c)

/-- One output row of a long-format extraction table:
(accession_id, year, month, value). -/
structure ClimRow where
  accession_id : String
  year : Int
  month : Int
  value : ℚ
deriving DecidableEq, Repr

/-- An opened NetCDF dataset for one variable: the time axis as (year, month)
labels and the data values indexed (time, lat, lon), the dimension order of
the TerraClimate aggregated files. -/
structure GridData where
  timeIndex : List (Int × Int)
  values : Nat → Nat → Nat → ℚ

/-- Model of `extract_timeseries_for_accession` (`extract.py` lines 18-52):
`ds[variable].isel(lat=lat_idx, lon=lon_idx).values` is the point's full time
series, one row per time step. -/
def extract_timeseries_for_accession (ds : GridData) (accessionId : String)
    (latIdx lonIdx : Nat) : List ClimRow :=
  (List.range ds.timeIndex.length).map (fun t =>
    { accession_id := accessionId,
      year := (ds.timeIndex.getD t (0, 0)).1,
      month := (ds.timeIndex.getD t (0, 0)).2,
      value := ds.values t latIdx lonIdx })

/-- Model of `extract_variable_sequential` (`extract.py` lines 55-121) with no
year filter (`start_year = end_year = None`, the `config.py` default): one
indexed read per indexed point, results concatenated in index order. -/
def extract_variable_sequential (ds : GridData) (spatialIndex : SpatialIndexT) :
    List ClimRow :=
  (spatialIndex.map (fun p => extract_timeseries_for_accession ds p.1 p.2.1 p.2.2)).flatten

/-- Model of `extract_vectorized_all_locations` (`extract.py` lines 201-256).
The batched read
`ds[variable].isel(lat=xr.DataArray(lat_indices, dims='accession'),
lon=xr.DataArray(lon_indices, dims='accession')).values` of a variable
dimensioned (time, lat, lon) has shape (n_times, n_accessions): xarray's
vectorized indexing substitutes the broadcast indexer dimension in place of
the indexed dimensions, so time stays first — not `(n_accessions,
n_time_points)` as the comment on `extract.py` line 235 asserts.  Row `k` of
the assembled frame therefore pairs label `accession_ids[k / n_times]`
(`np.repeat`) and time label `time_index[k % n_times]` (`np.tile`) with
`data.flatten()[k] = data[k / n_accessions][k % n_accessions]`.  (The labels
are modelled positionally; in the running code `time_array.year` on line 249
additionally raises `AttributeError`, because `np.tile` of a `DatetimeIndex`
is a plain `datetime64` ndarray without `.year`/`.month`.) -/
def extract_vectorized_all_locations (ds : GridData) (spatialIndex : SpatialIndexT) :
    List ClimRow :=
  let accessionIds := spatialIndex.map (fun p => p.1)
  let latIndices := spatialIndex.map (fun p => p.2.1)
  let lonIndices := spatialIndex.map (fun p => p.2.2)
  let nAcc := accessionIds.length
  let nTimes := ds.timeIndex.length
  (List.range (nAcc * nTimes)).map (fun k =>
    { accession_id := accessionIds.getD (k / nTimes) "",
      year := (ds.timeIndex.getD (k % nTimes) (0, 0)).1,
      month := (ds.timeIndex.getD (k % nTimes) (0, 0)).2,
      value := ds.values (k / nAcc) (latIndices.getD (k % nAcc) 0)
        (lonIndices.getD (k % nAcc) 0) })

/-- Model of `extract_all_variables` (`extract.py` lines 152-198): the
per-variable extraction is abstracted as `f` (it opens the source and either
returns the variable's table or raises).  A raising variable is skipped and
its (name, message) appended to the failures log; the loop continues with the
remaining variables. -/
def extract_all_variables (f : String → Except String (List ClimRow))
    (variableNames : List String) :
    List (String × List ClimRow) × List (String × String) :=
  variableNames.foldl (fun acc var =>
    match f var with
    | .ok df => (acc.1 ++ [(var, df)], acc.2)
    | .error e => (acc.1, acc.2 ++ [(var, e)])) ([], [])

/-- The join key of the long tables: (accession_id, year, month). -/
abbrev Key := String × Int × Int

/-- A long-format table for one variable, keyed by (accession_id, year, month). -/
abbrev LongTable := List (Key × ℚ)

/-- A merged wide-format frame: the variable column names in join order, and
one row per key holding each variable column's cell (`none` = NaN). -/
structure WideDF where
  varNames : List String
  rows : List (Key × List (String × Option ℚ))
deriving DecidableEq, Repr

/-- The cell of a row for column `v`: `none` when the column is absent from
the row or holds NaN. -/
def rowCell (cells : List (String × Option ℚ)) (v : String) : Option ℚ :=
  match cells.find? (fun p => decide (p.1 = v)) with
  | some p => p.2
  | none => none

/-- Value of long table `t` at key `k` (first match), `none` when absent. -/
def lookupKey (t : LongTable) (k : Key) : Option ℚ :=
  match t.find? (fun p => decide (p.1 = k)) with
  | some p => some p.2
  | none => none

/-- One step of the merge loop of `merge_variables_wide_format`
(`transform.py` lines 40-50): an outer join of the accumulated wide frame
with `df[['accession_id', 'year', 'month', var]]` on the key.  Keys present
on the left keep their row and gain column `var` (NaN when the key is absent
on the right); right-only keys are appended with NaN in every previous
variable column.  (pandas sorts the union of keys lexicographically; the
properties proved below are row-order-insensitive and left-then-right order
is kept.) -/
def mergeOuter (w : WideDF) (var : String) (t : LongTable) : WideDF :=
  { varNames := w.varNames ++ [var],
    rows :=
      w.rows.map (fun r => (r.1, r.2 ++ [(var, lookupKey t r.1)]))
        ++ (t.filter (fun p => ! w.rows.any (fun r => decide (r.1 = p.1)))).map
            (fun p =>
              (p.1, w.varNames.map (fun u => (u, (none : Option ℚ))) ++ [(var, some p.2)])) }

/-- Model of `merge_variables_wide_format` (`transform.py` lines 16-54): start
from the first variable's table and outer-merge each further variable in
sequence.  The code reads the first variable as `list(variable_data.keys())[0]`
(an IndexError on an empty dict), so the nonempty dict is passed as head and
tail. -/
def merge_variables_wide_format (first : String × LongTable)
    (rest : List (String × LongTable)) : WideDF :=
  rest.foldl (fun w p => mergeOuter w p.1 p.2)
    { varNames := [first.1],
      rows := first.2.map (fun p => (p.1, [(first.1, some p.2)])) }

/-- Column assignment `df[name] = ...` restricted to one row's cells: replace
in place when the column is present, else append at the end. -/
def setCell : List (String × Option ℚ) → String → Option ℚ → List (String × Option ℚ)
  | [], name, v => [(name, v)]
  | p :: rest, name, v =>
    if p.1 = name then (name, v) :: rest else p :: setCell rest name v

/-- One conditional derived-column assignment of `add_derived_climate_indices`:
when columns `a` and `b` are both present, set column `name` to `f` applied
row-wise (NaN when either operand is NaN, as in pandas arithmetic). -/
def setDerived (w : WideDF) (name a b : String) (f : ℚ → ℚ → ℚ) : WideDF :=
  if a ∈ w.varNames ∧ b ∈ w.varNames then
    { varNames := if name ∈ w.varNames then w.varNames else w.varNames ++ [name],
      rows := w.rows.map (fun r =>
        (r.1, setCell r.2 name
          (match rowCell r.2 a, rowCell r.2 b with
           | some x, some y => some (f x y)
           | _, _ => none))) }
  else w

/-- Model of `add_derived_climate_indices` (`transform.py` lines 175-209): the
four conditional column assignments in source order.  Rational division is
total with `x / 0 = 0`; in IEEE floats `pet / (ppt + 0.1)` yields an infinity
when `ppt = -0.1`, a case outside the nonnegative precipitation data. -/
def add_derived_climate_indices (w : WideDF) : WideDF :=
  let w1 := setDerived w "aridity_index" "pet" "ppt" (fun p q => p / (q + 1/10))
  let w2 := setDerived w1 "water_balance" "ppt" "aet" (fun p q => p - q)
  let w3 := setDerived w2 "temp_range" "tmax" "tmin" (fun p q => p - q)
  setDerived w3 "moisture_availability" "soil" "def" (fun p q => p - q)

/-- Insertion step of the ascending sort used to model pandas `median`. -/
def insertQ (x : ℚ) : List ℚ → List ℚ
  | [] => [x]
  | y :: rest => if x ≤ y then x :: y :: rest else y :: insertQ x rest

/-- Ascending insertion sort over rationals. -/
def sortQ : List ℚ → List ℚ
  | [] => []
  | x :: rest => insertQ x (sortQ rest)

/-- pandas `median`: the middle of the sorted values, the mean of the two
middle values for even length, NaN on an empty series. -/
def medianQ (xs : List ℚ) : Option ℚ :=
  let s := sortQ xs
  let n := s.length
  if n = 0 then none
  else if n % 2 = 1 then some (s.getD (n / 2) 0)
  else some ((s.getD (n / 2 - 1) 0 + s.getD (n / 2) 0) / 2)

/-- pandas `mean`: the sum over the count, NaN on an empty series. -/
def meanQ (xs : List ℚ) : Option ℚ :=
  if xs.length = 0 then none else some (xs.sum / xs.length)

/-- One aggregation statistic by its pandas name.  Sample standard deviation
(`std`) involves a square root, irrational in general; it is passed in as
`sf`, and every theorem below holds for an arbitrary `sf`. -/
def statEval (sf : List ℚ → Option ℚ) : String → List ℚ → Option ℚ
  | "mean", xs => meanQ xs
  | "std", xs => sf xs
  | "min", xs => xs.min?
  | "max", xs => xs.max?
  | "median", xs => medianQ xs
  | _, _ => none

/-- The non-NaN values of column `v` over a group of rows: pandas aggregation
functions skip NaN cells. -/
def colValues (rows : List (Key × List (String × Option ℚ))) (v : String) : List ℚ :=
  rows.filterMap (fun r => rowCell r.2 v)

/-- `summary_stats = ['mean', 'std', 'min', 'max', 'median']`
(`transform.py` line 161). -/
def summaryStats : List String := ["mean", "std", "min", "max", "median"]

/-- The statistics of `compute_temporal_aggregates`:
`agg_dict = {var: ['mean', 'std', 'min', 'max'] for var in variables}`
(`transform.py` line 128) — `median` is not among them. -/
def temporalStats : List String := ["mean", "std", "min", "max"]

/-- Shared grouping step of the two aggregation functions,
`df.groupby(group_cols).agg(agg_dict)` with the column MultiIndex flattened
to `var_stat`: one output row per distinct group key of `keyOf`, aggregating
each variable column with the given statistics over the key's group.  pandas
sorts group keys; the rows here follow occurrence order, and the properties
proved below are row-order-insensitive. -/
def groupAgg {G : Type} [DecidableEq G] (sf : List ℚ → Option ℚ) (df : WideDF)
    (variableNames : List String) (stats : List String) (keyOf : Key → G) :
    List (G × List (String × Option ℚ)) :=
  (df.rows.map (fun r => keyOf r.1)).dedup.map (fun k =>
    let grp := df.rows.filter (fun r => decide (keyOf r.1 = k))
    (k, variableNames.flatMap (fun v => stats.map (fun s =>
      (v ++ "_" ++ s, statEval sf s (colValues grp v))))))

/-- Model of `compute_climate_summaries` (`transform.py` lines 141-172):
group by `accession_id` alone and aggregate every variable with
mean, std, min, max and median. -/
def compute_climate_summaries (sf : List ℚ → Option ℚ) (df : WideDF)
    (variableNames : List String) : List (String × List (String × Option ℚ)) :=
  groupAgg sf df variableNames summaryStats (fun k => k.1)

/-- `season_map` of `create_temporal_features` (`transform.py` lines 77-83):
meteorological seasons.  A month outside 1..12 maps to NaN in pandas,
rendered here as the empty label; calendar months never reach it. -/
def season_map (m : Int) : String :=
  if m = 12 ∨ m = 1 ∨ m = 2 then "Winter"
  else if m = 3 ∨ m = 4 ∨ m = 5 then "Spring"
  else if m = 6 ∨ m = 7 ∨ m = 8 then "Summer"
  else if m = 9 ∨ m = 10 ∨ m = 11 then "Fall"
  else ""

/-- Group key of `compute_temporal_aggregates`: accession, year, and the
season or quarter label when the period asks for one. -/
abbrev TemporalKey := String × Int × Option String

/-- Model of `compute_temporal_aggregates` (`transform.py` lines 93-138).
Group columns: `['accession_id', 'year']` for period `year`;
`['accession_id', 'year', 'season']` for `season` (the season computed from
the month by `create_temporal_features`); `['accession_id', 'year',
'quarter']` for `quarter`; any other period raises `ValueError`.  The
aggregation statistics are `temporalStats` — mean, std, min, max. -/
def compute_temporal_aggregates (sf : List ℚ → Option ℚ) (df : WideDF)
    (variableNames : List String) (period : String) :
    Except String (List (TemporalKey × List (String × Option ℚ))) :=
  if period = "year" then
    .ok (groupAgg sf df variableNames temporalStats
      (fun k => (k.1, k.2.1, (none : Option String))))
  else if period = "season" then
    .ok (groupAgg sf df variableNames temporalStats
      (fun k => (k.1, k.2.1, some (season_map k.2.2))))
  else if period = "quarter" then
    .ok (groupAgg sf df variableNames temporalStats
      (fun k => (k.1, k.2.1, some (toString ((k.2.2 + 2) / 3)))))
  else .error ("Unknown aggregation period: " ++ period)

/-- Result of `prepare_for_gwas`: the table shape depends on the aggregation
mode. -/
inductive GwasResult where
  | wideOut : WideDF → GwasResult
  | summaryOut : List (String × List (String × Option ℚ)) → GwasResult
  | temporalOut : List (TemporalKey × List (String × Option ℚ)) → GwasResult
deriving DecidableEq, Repr

/-- Columns excluded from the climate-variable list in `prepare_for_gwas`
(`transform.py` lines 236-237 and 244-245). -/
def metaColumns : List String := ["accession_id", "year", "month", "season", "quarter"]

/-- Model of `prepare_for_gwas` (`transform.py` lines 212-260).  An empty
variable mapping raises (`list(variable_data.keys())[0]` is an IndexError).
Otherwise the long tables are outer-merged into wide format, derived indices
optionally added (the code recomputes `climate_vars` afterwards, so the
variable list is the post-derivation column list minus the meta columns
either way), and the chosen aggregation applied; an unknown aggregation
raises `ValueError`, producing no table. -/
def prepare_for_gwas (sf : List ℚ → Option ℚ)
    (variableData : List (String × LongTable)) (aggregation : String)
    (addDerived : Bool) : Except String GwasResult :=
  match variableData with
  | [] => .error ("IndexError: list index out of range")
  | first :: rest =>
    let df0 := merge_variables_wide_format first rest
    let df := if addDerived then add_derived_climate_indices df0 else df0
    let climateVars := df.varNames.filter (fun c => decide (c ∉ metaColumns))
    if aggregation = "summary" then
      .ok (.summaryOut (compute_climate_summaries sf df climateVars))
    else if aggregation = "annual" then
      (compute_temporal_aggregates sf df climateVars "year").map .temporalOut
    else if aggregation = "seasonal" then
      (compute_temporal_aggregates sf df climateVars "season").map .temporalOut
    else if aggregation = "monthly" then
      .ok (.wideOut df)
    else .error ("Unknown aggregation type: " ++ aggregation)

/-- The aggregation choices the CLI accepts (`main.py` lines 43-49,
`argparse` `choices=['summary', 'annual', 'seasonal', 'monthly']`). -/
def VALID_AGGREGATIONS : List String := ["summary", "annual", "seasonal", "monthly"]

/-- Model of the pipeline order in `main.py`: `argparse` validates
`--aggregation` against its `choices` and exits before `main` runs on an
invalid mode, so extraction never starts; otherwise extraction runs
(abstracted as `extractOracle`), an empty result is fatal, and the data is
handed to `prepare_for_gwas`.  The boolean of the result records whether
extraction was invoked. -/
def run_pipeline (sf : List ℚ → Option ℚ) (aggArg : String)
    (extractOracle : Unit → List (String × LongTable)) :
    Except String GwasResult × Bool :=
  if aggArg ∈ VALID_AGGREGATIONS then
    let dat := extractOracle ()
    if dat.isEmpty then (.error ("No data extracted"), true)
    else (prepare_for_gwas sf dat aggArg true, true)
  else (.error ("argument --aggregation: invalid choice: " ++ aggArg), false)

/-- The cell an accession id ends up bound to after the `build_spatial_index`
loop: each row bearing the id whose nearest-cell search succeeds overwrites
the binding (dict assignment is last-writer-wins), and failing rows leave it
untouched.  `dflt` is the binding accumulated so far. -/
def lastSuccessCell (gridLats gridLons : List ℚ) (tol : ℚ) (x : String) :
    List Accession → Option (Nat × Nat) → Option (Nat × Nat)
  | [], dflt => dflt
  | r :: rest, dflt =>
    if r.id = x then
      match find_nearest_grid_cell r.latitude r.longitude gridLats gridLons tol with
      | some cell => lastSuccessCell gridLats gridLons tol x rest (some cell)
      | none => lastSuccessCell gridLats gridLons tol x rest dflt
    else lastSuccessCell gridLats gridLons tol x rest dflt

/-- The four derived column names of `add_derived_climate_indices`. -/
def derivedNames : List String :=
  ["aridity_index", "water_balance", "temp_range", "moisture_availability"]

/-- A two-time-step dataset over a 2x2 grid whose four cells carry pairwise
distinct time series. -/
def twoStepData : GridData :=
  { timeIndex := [(1958, 1), (1958, 2)],
    values := fun t la lo => ((100 * t + 10 * la + lo : Nat) : ℚ) }

/-- Two accessions indexed at distinct grid cells. -/
def twoPointIndex : SpatialIndexT := [("CS1", 0, 0), ("CS2", 1, 1)]

/-- A one-variable wide frame with one accession observed in two years. -/
def twoYearFrame : WideDF :=
  { varNames := ["tmax"],
    rows := [(("CS1", 1958, 1), [("tmax", some 1)]),
             (("CS1", 1959, 1), [("tmax", some 3)])] }

/-- A one-row wide frame holding all seven base columns the derived indices
read, with the concrete values of the spec's examples. -/
def sevenColRow : WideDF :=
  { varNames := ["ppt", "aet", "tmax", "tmin", "pet", "soil", "def"],
    rows := [(("CS1", 1958, 1),
      [("ppt", some 100), ("aet", some 40), ("tmax", some 30), ("tmin", some 10),
       ("pet", some 50), ("soil", some 7), ("def", some 3)])] }

/-- Invariant of the outer-join fold of `merge_variables_wide_format` after
consuming `inputs`: the columns are the input variable names in order, the
row keys are exactly the union of the input key sets without duplicates,
every row materializes one cell per column, and each cell holds exactly the
corresponding input table's value at the row's key (`none` when absent). -/
def MergeInv (inputs : List (String × LongTable)) (w : WideDF) : Prop :=
  w.varNames = inputs.map (fun p => p.1)
  ∧ (w.rows.map (fun r => r.1)).Nodup
  ∧ (∀ k : Key, k ∈ w.rows.map (fun r => r.1) ↔ ∃ p ∈ inputs, k ∈ p.2.map (fun q => q.1))
  ∧ (∀ pr ∈ w.rows, pr.2.map (fun c => c.1) = w.varNames)
  ∧ (∀ pr ∈ w.rows, ∀ p ∈ inputs, rowCell pr.2 p.1 = lookupKey p.2 pr.1)

/-- Long table of variable tmax in the merge example: point A at two months. -/
def tmaxTable : LongTable := [(("A", 1958, 1), 30), (("A", 1958, 2), 31)]

/-- Long table of variable ppt in the merge example: it shares key (A, 1958, 1)
with tmax, lacks (A, 1958, 2), and has the extra key (B, 1958, 1). -/
def pptTable : LongTable := [(("A", 1958, 1), 100), (("B", 1958, 1), 7)]

-- ## Theorems

/-- C5.  The spatial-index cache round-trips: a freshly built index written to
the cache is returned unchanged by a later call that finds the cache present;
the cache is consulted only when present and not forced to rebuild
(`use_cache = False` rebuilds regardless of the cached content); and the
cache is written exactly after a successful build with `use_cache` set. -/
theorem build_spatial_index_cache_roundtrip (catalog : List Accession)
    (gridLats gridLons : List ℚ) (tol : ℚ) (j : SpatialIndexT) :
    build_spatial_index true
        (build_spatial_index true none catalog gridLats gridLons tol).2
        catalog gridLats gridLons tol
      = ((build_spatial_index true none catalog gridLats gridLons tol).1,
         (build_spatial_index true none catalog gridLats gridLons tol).2)
    ∧ build_spatial_index true (some j) catalog gridLats gridLons tol = (j, some j)
    ∧ build_spatial_index false (some j) catalog gridLats gridLons tol
        = ((buildIndexCore gridLats gridLons tol catalog).1, some j)
    ∧ (build_spatial_index true none catalog gridLats gridLons tol).2
        = some (build_spatial_index true none catalog gridLats gridLons tol).1
    ∧ (build_spatial_index false none catalog gridLats gridLons tol).2 = none :=
  ⟨rfl, rfl, rfl, rfl, rfl⟩

/-- C1.  The two extraction strategies disagree on a two-point, two-time-step
input: the sequential strategy pairs accession CS1 with its own cell's value
at the second time step (100), while the batched strategy's reshape pairs
that (point, time) label with the value of the other point at the first time
step — the batched read is time-major while the label arrays are
accession-major. -/
theorem extract_strategies_disagree :
    ((⟨"CS1", 1958, 2, 100⟩ : ClimRow) ∈ extract_variable_sequential twoStepData twoPointIndex)
    ∧ ((⟨"CS1", 1958, 2, 100⟩ : ClimRow) ∉ extract_vectorized_all_locations twoStepData twoPointIndex)
    ∧ extract_variable_sequential twoStepData twoPointIndex
        ≠ extract_vectorized_all_locations twoStepData twoPointIndex := by
  refine ⟨?_, ?_, ?_⟩ <;> decide

/-- Characterization of the `extract_all_variables` loop: the successes and
the failures accumulate in variable order, independently of each other. -/
theorem extract_all_variables_eq_filterMap (f : String → Except String (List ClimRow))
    (l : List String) (d : List (String × List ClimRow)) (fl : List (String × String)) :
    List.foldl (fun acc var =>
        match f var with
        | .ok df => (acc.1 ++ [(var, df)], acc.2)
        | .error e => (acc.1, acc.2 ++ [(var, e)])) (d, fl) l
      = (d ++ l.filterMap (fun v =>
            match f v with
            | .ok df => some (v, df)
            | .error _ => none),
         fl ++ l.filterMap (fun v =>
            match f v with
            | .ok _ => none
            | .error e => some (v, e))) := by
  induction l generalizing d fl with
  | nil => simp
  | cons v l ih =>
    simp only [List.foldl_cons, List.filterMap_cons]
    cases hfv : f v with
    | ok df => simp [hfv, ih]
    | error e => simp [hfv, ih]

/-- C4.  A variable whose extraction raises is recorded in the failures log
and skipped: the successful results are exactly those of the run that never
requested it, and the failing variable never appears among the result keys. -/
theorem extract_all_variables_error_isolated (f : String → Except String (List ClimRow))
    (e : String) (l₁ l₂ : List String) (bad : String) (hbad : f bad = .error e) :
    (extract_all_variables f (l₁ ++ bad :: l₂)).1 = (extract_all_variables f (l₁ ++ l₂)).1
    ∧ bad ∉ ((extract_all_variables f (l₁ ++ bad :: l₂)).1).map (fun p => p.1)
    ∧ (bad, e) ∈ (extract_all_variables f (l₁ ++ bad :: l₂)).2 := by
  have hchar : ∀ l : List String,
      extract_all_variables f l
        = (l.filterMap (fun v =>
              match f v with
              | .ok df => some (v, df)
              | .error _ => none),
           l.filterMap (fun v =>
              match f v with
              | .ok _ => none
              | .error e => some (v, e))) := by
    intro l
    have h := extract_all_variables_eq_filterMap f l [] []
    simpa [extract_all_variables] using h
  refine ⟨?_, ?_, ?_⟩
  · simp [hchar, List.filterMap_append, hbad]
  · intro hmem
    rw [hchar] at hmem
    rcases List.mem_map.mp hmem with ⟨p, hp, hfst⟩
    rcases List.mem_filterMap.mp hp with ⟨v, _, hv⟩
    cases hfv : f v with
    | ok df =>
      rw [hfv] at hv
      cases hv
      simp only at hfst
      rw [hfst] at hfv
      rw [hfv] at hbad
      cases hbad
    | error e2 => rw [hfv] at hv; cases hv
  · rw [hchar]
    refine List.mem_filterMap.mpr ⟨bad, by simp, ?_⟩
    rw [hbad]

/-- Witness for C4 at a concrete oracle: requesting `aet, q, ppt` where `q`
raises yields the same successes as requesting `aet, ppt`, no `q` result, and
the failure recorded. -/
theorem extract_all_variables_error_isolated_witness :
    (extract_all_variables
        (fun v => if v = "q" then .error "HTTP 500" else .ok ([] : List ClimRow))
        (["aet"] ++ "q" :: ["ppt"])).1
      = (extract_all_variables
          (fun v => if v = "q" then .error "HTTP 500" else .ok ([] : List ClimRow))
          (["aet"] ++ ["ppt"])).1
    ∧ "q" ∉ ((extract_all_variables
          (fun v => if v = "q" then .error "HTTP 500" else .ok ([] : List ClimRow))
          (["aet"] ++ "q" :: ["ppt"])).1).map (fun p => p.1)
    ∧ ("q", "HTTP 500") ∈ (extract_all_variables
          (fun v => if v = "q" then .error "HTTP 500" else .ok ([] : List ClimRow))
          (["aet"] ++ "q" :: ["ppt"])).2 :=
  extract_all_variables_error_isolated
    (fun v => if v = "q" then .error "HTTP 500" else .ok ([] : List ClimRow))
    "HTTP 500" ["aet"] ["ppt"] "q" rfl

/-- C9.  With a nonempty variable mapping, `prepare_for_gwas` succeeds exactly
on the four aggregation modes `summary`, `annual`, `seasonal`, `monthly`; any
other mode yields the fatal `Unknown aggregation type` error and no table;
and at the pipeline level an invalid mode is rejected by the CLI argument
check before extraction is ever invoked. -/
theorem prepare_for_gwas_mode_gate (sf : List ℚ → Option ℚ)
    (dat : List (String × LongTable)) (agg : String) (addD : Bool)
    (oracle : Unit → List (String × LongTable)) (hne : dat ≠ []) :
    ((prepare_for_gwas sf dat agg addD).isOk = true ↔ agg ∈ VALID_AGGREGATIONS)
    ∧ (agg ∉ VALID_AGGREGATIONS →
        prepare_for_gwas sf dat agg addD = .error ("Unknown aggregation type: " ++ agg))
    ∧ (agg ∉ VALID_AGGREGATIONS →
        run_pipeline sf agg oracle
          = (.error ("argument --aggregation: invalid choice: " ++ agg), false)) := by
  match dat, hne with
  | first :: rest, _ =>
    by_cases h1 : agg = "summary"
    · subst h1
      refine ⟨by simp [prepare_for_gwas, Except.isOk, Except.toBool, VALID_AGGREGATIONS], ?_, ?_⟩ <;>
        · intro hmem; exact absurd (by simp [VALID_AGGREGATIONS]) hmem
    · by_cases h2 : agg = "annual"
      · subst h2
        refine ⟨?_, ?_, ?_⟩
        · simp [prepare_for_gwas, compute_temporal_aggregates, Except.map,
            Except.isOk, Except.toBool, VALID_AGGREGATIONS]
        all_goals intro hmem; exact absurd (by simp [VALID_AGGREGATIONS]) hmem
      · by_cases h3 : agg = "seasonal"
        · subst h3
          refine ⟨?_, ?_, ?_⟩
          · simp [prepare_for_gwas, compute_temporal_aggregates, Except.map,
              Except.isOk, Except.toBool, VALID_AGGREGATIONS]
          all_goals intro hmem; exact absurd (by simp [VALID_AGGREGATIONS]) hmem
        · by_cases h4 : agg = "monthly"
          · subst h4
            refine ⟨by simp [prepare_for_gwas, Except.isOk, Except.toBool, VALID_AGGREGATIONS], ?_, ?_⟩ <;>
              · intro hmem; exact absurd (by simp [VALID_AGGREGATIONS]) hmem
          · have hnot : agg ∉ VALID_AGGREGATIONS := by
              simp [VALID_AGGREGATIONS, h1, h2, h3, h4]
            refine ⟨?_, fun _ => ?_, fun _ => ?_⟩
            · simp [prepare_for_gwas, h1, h2, h3, h4, Except.isOk, Except.toBool, hnot]
            · simp [prepare_for_gwas, h1, h2, h3, h4]
            · simp [run_pipeline, hnot]

/-- Witness for C9 at the concrete mode `weekly`: the preparation fails with
the configuration error and the pipeline rejects it without extracting. -/
theorem prepare_for_gwas_mode_gate_witness :
    ((prepare_for_gwas (fun _ => none) [("tmax", [])] "weekly" true).isOk = true
        ↔ "weekly" ∈ VALID_AGGREGATIONS)
    ∧ ("weekly" ∉ VALID_AGGREGATIONS →
        prepare_for_gwas (fun _ => none) [("tmax", [])] "weekly" true
          = .error ("Unknown aggregation type: " ++ "weekly"))
    ∧ ("weekly" ∉ VALID_AGGREGATIONS →
        run_pipeline (fun _ => none) "weekly" (fun _ => [])
          = (.error ("argument --aggregation: invalid choice: " ++ "weekly"), false)) :=
  prepare_for_gwas_mode_gate (fun _ => none) [("tmax", [])] "weekly" true
    (fun _ => []) (by decide)

theorem argminFirst_eq_none (f : Nat → ℚ) (l : List Nat) :
    argminFirst f l = none ↔ l = [] := by
  cases l with
  | nil => simp [argminFirst]
  | cons i rest =>
    simp only [argminFirst]
    cases argminFirst f rest with
    | none => simp
    | some m => by_cases h : f m < f i <;> simp [h]

theorem argminFirst_cons_none (f : Nat → ℚ) (i : Nat) (rest : List Nat)
    (h : argminFirst f rest = none) : argminFirst f (i :: rest) = some i := by
  unfold argminFirst
  rw [h]

theorem argminFirst_cons_some (f : Nat → ℚ) (i m2 : Nat) (rest : List Nat)
    (h : argminFirst f rest = some m2) :
    argminFirst f (i :: rest) = if f m2 < f i then some m2 else some i := by
  unfold argminFirst
  rw [h]

theorem argminFirst_mem (f : Nat → ℚ) :
    ∀ {l : List Nat} {m : Nat}, argminFirst f l = some m → m ∈ l := by
  intro l
  induction l with
  | nil => intro m h; simp [argminFirst] at h
  | cons i rest ih =>
    intro m h
    cases hrest : argminFirst f rest with
    | none =>
      rw [argminFirst_cons_none f i rest hrest] at h
      cases h
      exact List.mem_cons_self i rest
    | some m2 =>
      rw [argminFirst_cons_some f i m2 rest hrest] at h
      by_cases hc : f m2 < f i
      · rw [if_pos hc] at h
        cases h
        exact List.mem_cons_of_mem i (ih hrest)
      · rw [if_neg hc] at h
        cases h
        exact List.mem_cons_self i rest

theorem argminFirst_le (f : Nat → ℚ) :
    ∀ {l : List Nat} {m : Nat}, argminFirst f l = some m → ∀ i ∈ l, f m ≤ f i := by
  intro l
  induction l with
  | nil => intro m h; simp [argminFirst] at h
  | cons i rest ih =>
    intro m h j hj
    cases hrest : argminFirst f rest with
    | none =>
      rw [argminFirst_cons_none f i rest hrest] at h
      cases h
      rcases List.mem_cons.mp hj with rfl | hjr
      · exact le_refl _
      · exact absurd ((argminFirst_eq_none f rest).mp hrest ▸ hjr) (List.not_mem_nil j)
    | some m2 =>
      rw [argminFirst_cons_some f i m2 rest hrest] at h
      by_cases hc : f m2 < f i
      · rw [if_pos hc] at h
        cases h
        rcases List.mem_cons.mp hj with rfl | hjr
        · exact le_of_lt hc
        · exact ih hrest j hjr
      · rw [if_neg hc] at h
        cases h
        rcases List.mem_cons.mp hj with rfl | hjr
        · exact le_refl _
        · exact le_trans (not_lt.mp hc) (ih hrest j hjr)

theorem argminFirst_first (f : Nat → ℚ) :
    ∀ {l : List Nat} {m : Nat}, argminFirst f l = some m →
      ∃ l₁ l₂, l = l₁ ++ m :: l₂ ∧ ∀ i ∈ l₁, f m < f i := by
  intro l
  induction l with
  | nil => intro m h; simp [argminFirst] at h
  | cons i rest ih =>
    intro m h
    cases hrest : argminFirst f rest with
    | none =>
      rw [argminFirst_cons_none f i rest hrest] at h
      cases h
      exact ⟨[], rest, rfl, by simp⟩
    | some m2 =>
      rw [argminFirst_cons_some f i m2 rest hrest] at h
      by_cases hc : f m2 < f i
      · rw [if_pos hc] at h
        cases h
        obtain ⟨l₁, l₂, heq, hlt⟩ := ih hrest
        refine ⟨i :: l₁, l₂, by simp [heq], ?_⟩
        intro j hj
        rcases List.mem_cons.mp hj with rfl | hjl
        · exact hc
        · exact hlt j hjl
      · rw [if_neg hc] at h
        cases h
        exact ⟨[], rest, rfl, by simp⟩

theorem mem_candidateIndices {grid : List ℚ} {x tol : ℚ} {i : Nat} :
    i ∈ candidateIndices grid x tol ↔ i < grid.length ∧ |grid.getD i 0 - x| < tol := by
  simp [candidateIndices, List.mem_filter, List.mem_range]

theorem candidateIndices_pairwise (grid : List ℚ) (x tol : ℚ) :
    (candidateIndices grid x tol).Pairwise (· < ·) :=
  (List.pairwise_lt_range grid.length).sublist (List.filter_sublist _) |>.imp id
  |>.imp id

/-- The per-axis choice of `find_nearest_grid_cell` is within tolerance,
globally distance-minimal, and the first (lowest) index among the minima. -/
theorem axis_argmin_spec (grid : List ℚ) (x tol : ℚ) {m : Nat}
    (h : argminFirst (fun i => |grid.getD i 0 - x|) (candidateIndices grid x tol) = some m) :
    m < grid.length ∧ |grid.getD m 0 - x| < tol
    ∧ (∀ i, i < grid.length → |grid.getD m 0 - x| ≤ |grid.getD i 0 - x|)
    ∧ (∀ i, i < m → |grid.getD m 0 - x| < |grid.getD i 0 - x|) := by
  have hmem := argminFirst_mem _ h
  have hmc := mem_candidateIndices.mp hmem
  refine ⟨hmc.1, hmc.2, ?_, ?_⟩
  · intro i hi
    by_cases hcand : |grid.getD i 0 - x| < tol
    · exact argminFirst_le _ h i (mem_candidateIndices.mpr ⟨hi, hcand⟩)
    · have h1 := hmc.2
      have h2 := not_lt.mp hcand
      linarith
  · intro i him
    by_cases hcand : i ∈ candidateIndices grid x tol
    · obtain ⟨l₁, l₂, heq, hfirst⟩ := argminFirst_first _ h
      have hin : i ∈ l₁ ++ m :: l₂ := heq ▸ hcand
      rcases List.mem_append.mp hin with hin1 | hin2
      · exact hfirst i hin1
      · rcases List.mem_cons.mp hin2 with rfl | hin3
        · omega
        · have hpw := candidateIndices_pairwise grid x tol
          rw [heq] at hpw
          have hmlt : m < i :=
            (List.rel_of_pairwise_cons (List.pairwise_append.mp hpw).2.1) hin3
          omega
    · have hilen : i < grid.length := lt_trans him hmc.1
      have hge : ¬ |grid.getD i 0 - x| < tol := fun hcl =>
        hcand (mem_candidateIndices.mpr ⟨hilen, hcl⟩)
      have h1 := hmc.2
      have h2 := not_lt.mp hge
      linarith

/-- On nonempty candidate sets both branches of `find_nearest_grid_cell`
return the per-axis argmin pair. -/
theorem find_nearest_grid_cell_eq_argmin (lat lon : ℚ) (gridLats gridLons : List ℚ)
    (tol : ℚ) (h1 : candidateIndices gridLats lat tol ≠ [])
    (h2 : candidateIndices gridLons lon tol ≠ []) :
    ∃ r c,
      argminFirst (fun i => |gridLats.getD i 0 - lat|) (candidateIndices gridLats lat tol)
        = some r
      ∧ argminFirst (fun j => |gridLons.getD j 0 - lon|) (candidateIndices gridLons lon tol)
        = some c
      ∧ find_nearest_grid_cell lat lon gridLats gridLons tol = some (r, c) := by
  obtain ⟨r, hr⟩ : ∃ r,
      argminFirst (fun i => |gridLats.getD i 0 - lat|) (candidateIndices gridLats lat tol)
        = some r := by
    cases h : argminFirst (fun i => |gridLats.getD i 0 - lat|)
        (candidateIndices gridLats lat tol) with
    | none => exact absurd ((argminFirst_eq_none _ _).mp h) h1
    | some r => exact ⟨r, rfl⟩
  obtain ⟨c, hc⟩ : ∃ c,
      argminFirst (fun j => |gridLons.getD j 0 - lon|) (candidateIndices gridLons lon tol)
        = some c := by
    cases h : argminFirst (fun j => |gridLons.getD j 0 - lon|)
        (candidateIndices gridLons lon tol) with
    | none => exact absurd ((argminFirst_eq_none _ _).mp h) h2
    | some c => exact ⟨c, rfl⟩
  refine ⟨r, c, hr, hc, ?_⟩
  have hl1 : (candidateIndices gridLats lat tol).length ≠ 0 := by
    simp [List.length_eq_zero, h1]
  have hl2 : (candidateIndices gridLons lon tol).length ≠ 0 := by
    simp [List.length_eq_zero, h2]
  simp only [find_nearest_grid_cell]
  rw [if_neg (by push_neg; exact ⟨hl1, hl2⟩)]
  by_cases hbig : 1 < (candidateIndices gridLats lat tol).length
      ∨ 1 < (candidateIndices gridLons lon tol).length
  · rw [if_pos hbig, hr, hc]
  · rw [if_neg hbig]
    push_neg at hbig
    have hlen1 : (candidateIndices gridLats lat tol).length = 1 := by omega
    have hlen2 : (candidateIndices gridLons lon tol).length = 1 := by omega
    obtain ⟨a, ha⟩ := List.length_eq_one.mp hlen1
    obtain ⟨b, hb⟩ := List.length_eq_one.mp hlen2
    rw [ha] at hr
    rw [hb] at hc
    simp only [argminFirst] at hr hc
    cases hr
    cases hc
    rw [ha, hb]
    rfl

/-- C2.  Whenever the point is within tolerance of some grid latitude and
some grid longitude, `find_nearest_grid_cell` returns a cell: its row is
within tolerance of the latitude and minimizes the absolute latitude
difference over the whole latitude axis, every strictly smaller row index
being strictly farther (ties go to the first minimal index), and
independently likewise for the column on the longitude axis. -/
theorem find_nearest_grid_cell_spec (lat lon : ℚ) (gridLats gridLons : List ℚ)
    (tol : ℚ)
    (hlat : ∃ i, i < gridLats.length ∧ |gridLats.getD i 0 - lat| < tol)
    (hlon : ∃ j, j < gridLons.length ∧ |gridLons.getD j 0 - lon| < tol) :
    ∃ r c, find_nearest_grid_cell lat lon gridLats gridLons tol = some (r, c)
      ∧ r < gridLats.length ∧ |gridLats.getD r 0 - lat| < tol
      ∧ (∀ i, i < gridLats.length → |gridLats.getD r 0 - lat| ≤ |gridLats.getD i 0 - lat|)
      ∧ (∀ i, i < r → |gridLats.getD r 0 - lat| < |gridLats.getD i 0 - lat|)
      ∧ c < gridLons.length ∧ |gridLons.getD c 0 - lon| < tol
      ∧ (∀ j, j < gridLons.length → |gridLons.getD c 0 - lon| ≤ |gridLons.getD j 0 - lon|)
      ∧ (∀ j, j < c → |gridLons.getD c 0 - lon| < |gridLons.getD j 0 - lon|) := by
  have h1 : candidateIndices gridLats lat tol ≠ [] := by
    obtain ⟨i, hi, hd⟩ := hlat
    intro hempty
    have hmem := mem_candidateIndices.mpr ⟨hi, hd⟩
    rw [hempty] at hmem
    exact absurd hmem (List.not_mem_nil i)
  have h2 : candidateIndices gridLons lon tol ≠ [] := by
    obtain ⟨j, hj, hd⟩ := hlon
    intro hempty
    have hmem := mem_candidateIndices.mpr ⟨hj, hd⟩
    rw [hempty] at hmem
    exact absurd hmem (List.not_mem_nil j)
  obtain ⟨r, c, hr, hc, heq⟩ := find_nearest_grid_cell_eq_argmin lat lon gridLats gridLons tol h1 h2
  obtain ⟨hrlen, hrtol, hrmin, hrfirst⟩ := axis_argmin_spec gridLats lat tol hr
  obtain ⟨hclen, hctol, hcmin, hcfirst⟩ := axis_argmin_spec gridLons lon tol hc
  exact ⟨r, c, heq, hrlen, hrtol, hrmin, hrfirst, hclen, hctol, hcmin, hcfirst⟩

/-- Witness for C2 at a concrete grid: the point (1/2, 1/2) on the axes
[0, 1/2, 1] matches cell (1, 1) within the 1/48 tolerance. -/
theorem find_nearest_grid_cell_spec_witness :
    ∃ r c, find_nearest_grid_cell (1/2) (1/2) [0, 1/2, 1] [0, 1/2, 1] SPATIAL_TOLERANCE
        = some (r, c)
      ∧ r < ([0, 1/2, 1] : List ℚ).length
      ∧ |([0, 1/2, 1] : List ℚ).getD r 0 - 1/2| < SPATIAL_TOLERANCE
      ∧ (∀ i, i < ([0, 1/2, 1] : List ℚ).length →
          |([0, 1/2, 1] : List ℚ).getD r 0 - 1/2| ≤ |([0, 1/2, 1] : List ℚ).getD i 0 - 1/2|)
      ∧ (∀ i, i < r →
          |([0, 1/2, 1] : List ℚ).getD r 0 - 1/2| < |([0, 1/2, 1] : List ℚ).getD i 0 - 1/2|)
      ∧ c < ([0, 1/2, 1] : List ℚ).length
      ∧ |([0, 1/2, 1] : List ℚ).getD c 0 - 1/2| < SPATIAL_TOLERANCE
      ∧ (∀ j, j < ([0, 1/2, 1] : List ℚ).length →
          |([0, 1/2, 1] : List ℚ).getD c 0 - 1/2| ≤ |([0, 1/2, 1] : List ℚ).getD j 0 - 1/2|)
      ∧ (∀ j, j < c →
          |([0, 1/2, 1] : List ℚ).getD c 0 - 1/2| < |([0, 1/2, 1] : List ℚ).getD j 0 - 1/2|) :=
  find_nearest_grid_cell_spec (1/2) (1/2) [0, 1/2, 1] [0, 1/2, 1] SPATIAL_TOLERANCE
    ⟨1, by norm_num [SPATIAL_TOLERANCE, List.getD]⟩ ⟨1, by norm_num [SPATIAL_TOLERANCE, List.getD]⟩

theorem lookup_dictInsert_self (k : String) (v : Nat × Nat) (d : SpatialIndexT) :
    List.lookup k (dictInsert k v d) = some v := by
  induction d with
  | nil => simp [dictInsert, List.lookup]
  | cons p rest ih =>
    obtain ⟨pk, pv⟩ := p
    by_cases h : pk = k
    · simp [dictInsert, h, List.lookup]
    · have hbeq : (k == pk) = false := beq_eq_false_iff_ne.mpr (fun he => h he.symm)
      simp [dictInsert, h, List.lookup, hbeq, ih]

theorem lookup_dictInsert_other (k : String) (v : Nat × Nat) (d : SpatialIndexT)
    (x : String) (h : x ≠ k) :
    List.lookup x (dictInsert k v d) = List.lookup x d := by
  induction d with
  | nil =>
    have hbeq : (x == k) = false := beq_eq_false_iff_ne.mpr h
    simp [dictInsert, List.lookup, hbeq]
  | cons p rest ih =>
    obtain ⟨pk, pv⟩ := p
    by_cases hp : pk = k
    · subst hp
      have hbeq : (x == pk) = false := beq_eq_false_iff_ne.mpr h
      simp [dictInsert, List.lookup, hbeq]
    · simp only [dictInsert, if_neg hp, List.lookup]
      by_cases hx : x = pk
      · have hbeq : (x == pk) = true := beq_iff_eq.mpr hx
        simp [hbeq]
      · have hbeq : (x == pk) = false := beq_eq_false_iff_ne.mpr hx
        simp [hbeq, ih]

theorem mem_keys_dictInsert (k : String) (v : Nat × Nat) (d : SpatialIndexT)
    (a : String) :
    a ∈ (dictInsert k v d).map (fun p => p.1) ↔ a = k ∨ a ∈ d.map (fun p => p.1) := by
  induction d with
  | nil => simp [dictInsert]
  | cons p rest ih =>
    by_cases hp : p.1 = k
    · simp only [dictInsert, if_pos hp, List.map_cons, List.mem_cons]
      rw [hp]
      tauto
    · simp only [dictInsert, if_neg hp, List.map_cons, List.mem_cons, ih]
      tauto

theorem nodup_keys_dictInsert (k : String) (v : Nat × Nat) (d : SpatialIndexT)
    (h : (d.map (fun p => p.1)).Nodup) :
    ((dictInsert k v d).map (fun p => p.1)).Nodup := by
  induction d with
  | nil => simp [dictInsert]
  | cons p rest ih =>
    simp only [List.map_cons, List.nodup_cons] at h
    by_cases hp : p.1 = k
    · simp only [dictInsert, if_pos hp, List.map_cons, List.nodup_cons]
      exact ⟨hp ▸ h.1, h.2⟩
    · simp only [dictInsert, if_neg hp, List.map_cons, List.nodup_cons]
      refine ⟨?_, ih h.2⟩
      rw [mem_keys_dictInsert]
      rintro (he | hm)
      · exact hp he
      · exact h.1 hm

theorem buildIndexLoop_failed (gridLats gridLons : List ℚ) (tol : ℚ)
    (cat : List Accession) (d : SpatialIndexT) (fl : List String) :
    (buildIndexLoop gridLats gridLons tol cat (d, fl)).2
      = fl ++ (cat.filter (fun r =>
          (find_nearest_grid_cell r.latitude r.longitude gridLats gridLons tol).isNone)).map
          (fun r => r.id) := by
  induction cat generalizing d fl with
  | nil => simp [buildIndexLoop]
  | cons r rest ih =>
    simp only [buildIndexLoop]
    cases h : find_nearest_grid_cell r.latitude r.longitude gridLats gridLons tol with
    | some cell => simp [h, ih, List.filter_cons]
    | none => simp [h, ih, List.filter_cons]

theorem buildIndexLoop_lookup (gridLats gridLons : List ℚ) (tol : ℚ)
    (cat : List Accession) (d : SpatialIndexT) (fl : List String) (x : String) :
    List.lookup x (buildIndexLoop gridLats gridLons tol cat (d, fl)).1
      = lastSuccessCell gridLats gridLons tol x cat (List.lookup x d) := by
  induction cat generalizing d fl with
  | nil => simp [buildIndexLoop, lastSuccessCell]
  | cons r rest ih =>
    simp only [buildIndexLoop, lastSuccessCell]
    cases h : find_nearest_grid_cell r.latitude r.longitude gridLats gridLons tol with
    | some cell =>
      by_cases hid : r.id = x
      · rw [if_pos hid, ih]
        congr 1
        rw [← hid, lookup_dictInsert_self]
      · rw [if_neg hid, ih]
        congr 1
        exact lookup_dictInsert_other r.id cell d x (fun he => hid he.symm)
    | none =>
      by_cases hid : r.id = x
      · rw [if_pos hid, ih]
      · rw [if_neg hid, ih]

theorem buildIndexLoop_keys_nodup (gridLats gridLons : List ℚ) (tol : ℚ)
    (cat : List Accession) (d : SpatialIndexT) (fl : List String)
    (h : (d.map (fun p => p.1)).Nodup) :
    ((buildIndexLoop gridLats gridLons tol cat (d, fl)).1.map (fun p => p.1)).Nodup := by
  induction cat generalizing d fl with
  | nil => simpa [buildIndexLoop] using h
  | cons r rest ih =>
    simp only [buildIndexLoop]
    cases hf : find_nearest_grid_cell r.latitude r.longitude gridLats gridLons tol with
    | some cell => exact ih _ _ (nodup_keys_dictInsert r.id cell d h)
    | none => exact ih _ _ h

theorem lastSuccessCell_of_not_mem (gridLats gridLons : List ℚ) (tol : ℚ)
    (x : String) (cat : List Accession) (dflt : Option (Nat × Nat))
    (h : ∀ r ∈ cat, r.id ≠ x) :
    lastSuccessCell gridLats gridLons tol x cat dflt = dflt := by
  induction cat generalizing dflt with
  | nil => rfl
  | cons r rest ih =>
    simp only [lastSuccessCell]
    rw [if_neg (h r (List.mem_cons_self r rest))]
    exact ih dflt (fun q hq => h q (List.mem_cons_of_mem r hq))

theorem lastSuccessCell_append (gridLats gridLons : List ℚ) (tol : ℚ) (x : String)
    (l₁ l₂ : List Accession) (dflt : Option (Nat × Nat)) :
    lastSuccessCell gridLats gridLons tol x (l₁ ++ l₂) dflt
      = lastSuccessCell gridLats gridLons tol x l₂
          (lastSuccessCell gridLats gridLons tol x l₁ dflt) := by
  induction l₁ generalizing dflt with
  | nil => rfl
  | cons r rest ih =>
    simp only [List.cons_append, lastSuccessCell]
    by_cases hid : r.id = x
    · rw [if_pos hid, if_pos hid]
      cases find_nearest_grid_cell r.latitude r.longitude gridLats gridLons tol with
      | some cell => exact ih (some cell)
      | none => exact ih dflt
    · rw [if_neg hid, if_neg hid]
      exact ih dflt

/-- C3.  With unique accession ids, each catalog row is settled exactly one
way by the index build: its id is bound in the index precisely to the cell
its nearest-cell search returns, it sits in the failure list precisely when
that search finds no cell within tolerance, and being indexed and being a
recorded failure are mutually exclusive and exhaustive; failures never abort
the loop, so this holds for every row of the catalog. -/
theorem build_spatial_index_partition (gridLats gridLons : List ℚ) (tol : ℚ)
    (catalog : List Accession) (hids : (catalog.map (fun r => r.id)).Nodup)
    (r : Accession) (hr : r ∈ catalog) :
    List.lookup r.id (buildIndexCore gridLats gridLons tol catalog).1
      = find_nearest_grid_cell r.latitude r.longitude gridLats gridLons tol
    ∧ (r.id ∈ (buildIndexCore gridLats gridLons tol catalog).2
        ↔ find_nearest_grid_cell r.latitude r.longitude gridLats gridLons tol = none)
    ∧ ((List.lookup r.id (buildIndexCore gridLats gridLons tol catalog).1).isSome = true
        ↔ r.id ∉ (buildIndexCore gridLats gridLons tol catalog).2) := by
  have hinj : ∀ q ∈ catalog, q.id = r.id → q = r := by
    intro q hq he
    exact List.inj_on_of_nodup_map hids hq hr he
  obtain ⟨c1, c2, rfl⟩ := List.append_of_mem hr
  have hids2 := hids
  rw [List.map_append, List.map_cons] at hids2
  obtain ⟨hn1, hn2, hdisj⟩ := List.nodup_append.mp hids2
  have hno1 : ∀ q ∈ c1, q.id ≠ r.id := by
    intro q hq he
    exact hdisj (List.mem_map_of_mem (fun a => a.id) hq)
      (by rw [he]; exact List.mem_cons_self _ _)
  have hno2 : ∀ q ∈ c2, q.id ≠ r.id := by
    intro q hq he
    have hnotin : r.id ∉ c2.map (fun a => a.id) := (List.nodup_cons.mp hn2).1
    exact hnotin (by rw [← he]; exact List.mem_map_of_mem (fun a => a.id) hq)
  have hlook : List.lookup r.id (buildIndexCore gridLats gridLons tol (c1 ++ r :: c2)).1
      = find_nearest_grid_cell r.latitude r.longitude gridLats gridLons tol := by
    rw [buildIndexCore, buildIndexLoop_lookup]
    rw [List.lookup_nil, lastSuccessCell_append,
      lastSuccessCell_of_not_mem _ _ _ _ c1 _ hno1]
    simp only [lastSuccessCell, if_pos rfl]
    cases find_nearest_grid_cell r.latitude r.longitude gridLats gridLons tol with
    | some cell => exact lastSuccessCell_of_not_mem _ _ _ _ c2 _ hno2
    | none => exact lastSuccessCell_of_not_mem _ _ _ _ c2 _ hno2
  have hfail : r.id ∈ (buildIndexCore gridLats gridLons tol (c1 ++ r :: c2)).2
      ↔ find_nearest_grid_cell r.latitude r.longitude gridLats gridLons tol = none := by
    rw [buildIndexCore, buildIndexLoop_failed]
    simp only [List.nil_append, List.mem_map, List.mem_filter]
    constructor
    · rintro ⟨q, ⟨hq, hqnone⟩, hqid⟩
      have hqr : q = r := hinj q hq hqid
      subst hqr
      exact Option.isNone_iff_eq_none.mp hqnone
    · intro hnone
      exact ⟨r, ⟨hr, Option.isNone_iff_eq_none.mpr hnone⟩, rfl⟩
  refine ⟨hlook, hfail, ?_⟩
  rw [hlook, hfail]
  cases find_nearest_grid_cell r.latitude r.longitude gridLats gridLons tol with
  | some cell => simp
  | none => simp

/-- Witness for C3 at a concrete three-row catalog on the grid [0, 1/2, 1]:
the row `X` lies far outside tolerance, so its lookup equals its (failed)
nearest-cell search and it is recorded as a failure. -/
theorem build_spatial_index_partition_witness :
    List.lookup "X" (buildIndexCore [0, 1/2, 1] [0, 1/2, 1] SPATIAL_TOLERANCE
        [⟨"A", 1/2, 1/2⟩, ⟨"X", 30, 30⟩, ⟨"B", 0, 1⟩]).1
      = find_nearest_grid_cell 30 30 [0, 1/2, 1] [0, 1/2, 1] SPATIAL_TOLERANCE
    ∧ ("X" ∈ (buildIndexCore [0, 1/2, 1] [0, 1/2, 1] SPATIAL_TOLERANCE
          [⟨"A", 1/2, 1/2⟩, ⟨"X", 30, 30⟩, ⟨"B", 0, 1⟩]).2
        ↔ find_nearest_grid_cell 30 30 [0, 1/2, 1] [0, 1/2, 1] SPATIAL_TOLERANCE = none)
    ∧ ((List.lookup "X" (buildIndexCore [0, 1/2, 1] [0, 1/2, 1] SPATIAL_TOLERANCE
          [⟨"A", 1/2, 1/2⟩, ⟨"X", 30, 30⟩, ⟨"B", 0, 1⟩]).1).isSome = true
        ↔ "X" ∉ (buildIndexCore [0, 1/2, 1] [0, 1/2, 1] SPATIAL_TOLERANCE
            [⟨"A", 1/2, 1/2⟩, ⟨"X", 30, 30⟩, ⟨"B", 0, 1⟩]).2) :=
  build_spatial_index_partition [0, 1/2, 1] [0, 1/2, 1] SPATIAL_TOLERANCE
    [⟨"A", 1/2, 1/2⟩, ⟨"X", 30, 30⟩, ⟨"B", 0, 1⟩] (by decide)
    ⟨"X", 30, 30⟩ (by decide)

/-- C10.  The built index is a genuine mapping — its keys are free of
duplicates — and the binding of any id is the cell of the last catalog row
bearing that id whose nearest-cell search succeeded, later successful rows
silently overwriting earlier ones (`lastSuccessCell` is exactly that
fold); at the dict level an assignment under an existing key replaces its
value; and the catalog loader keeps every row with both coordinates present,
so duplicate ids pass through it unchecked. -/
theorem spatial_index_last_write_wins (gridLats gridLons : List ℚ) (tol : ℚ)
    (catalog : List Accession) (x : String) (rawRows : List RawAccession) :
    ((buildIndexCore gridLats gridLons tol catalog).1.map (fun p => p.1)).Nodup
    ∧ List.lookup x (buildIndexCore gridLats gridLons tol catalog).1
        = lastSuccessCell gridLats gridLons tol x catalog none
    ∧ List.lookup "D" (dictInsert "D" (1, 1) [("D", (0, 0))]) = some (1, 1)
    ∧ (∀ q : Accession, q ∈ load_accessions rawRows
        ↔ ∃ raw ∈ rawRows, raw.id = q.id ∧ raw.latitude = some q.latitude
            ∧ raw.longitude = some q.longitude) := by
  refine ⟨?_, ?_, by decide, ?_⟩
  · exact buildIndexLoop_keys_nodup gridLats gridLons tol catalog [] [] (by simp)
  · rw [buildIndexCore, buildIndexLoop_lookup, List.lookup_nil]
  · intro q
    constructor
    · intro hq
      rcases List.mem_filterMap.mp hq with ⟨raw, hraw, heq⟩
      refine ⟨raw, hraw, ?_⟩
      cases hla : raw.latitude with
      | none => rw [hla] at heq; cases heq
      | some la =>
        cases hlo : raw.longitude with
        | none => rw [hla, hlo] at heq; cases heq
        | some lo =>
          rw [hla, hlo] at heq
          simp only [Option.some_inj] at heq
          subst heq
          exact ⟨rfl, by simp [hla], by simp [hlo]⟩
    · rintro ⟨raw, hraw, hid, hla, hlo⟩
      refine List.mem_filterMap.mpr ⟨raw, hraw, ?_⟩
      rw [hla, hlo, hid]

theorem rowCell_cons (pk : String) (pv : Option ℚ) (l : List (String × Option ℚ))
    (u : String) :
    rowCell ((pk, pv) :: l) u = if pk = u then pv else rowCell l u := by
  by_cases h : pk = u
  · simp [rowCell, List.find?_cons_of_pos, h]
  · simp only [rowCell, if_neg h]
    rw [List.find?_cons_of_neg]
    simp [h]

theorem rowCell_nil (u : String) : rowCell [] u = none := rfl

theorem rowCell_setCell (cells : List (String × Option ℚ)) (name : String)
    (v : Option ℚ) (u : String) :
    rowCell (setCell cells name v) u = if name = u then v else rowCell cells u := by
  induction cells with
  | nil => simp [setCell, rowCell_cons, rowCell_nil]
  | cons p rest ih =>
    obtain ⟨pk, pv⟩ := p
    by_cases hp : pk = name
    · subst hp
      simp only [setCell, eq_self_iff_true, if_true]
      rw [rowCell_cons, rowCell_cons]
      by_cases hu : pk = u <;> simp [hu]
    · simp only [setCell, if_neg hp]
      rw [rowCell_cons, rowCell_cons, ih]
      by_cases hu : pk = u
      · have hnu : name ≠ u := fun he => hp (by rw [hu, he])
        simp [hu, hnu]
      · simp [hu]

theorem mem_varNames_setDerived (w : WideDF) (name a b : String) (f : ℚ → ℚ → ℚ)
    (v : String) :
    v ∈ (setDerived w name a b f).varNames
      ↔ v ∈ w.varNames ∨ (v = name ∧ a ∈ w.varNames ∧ b ∈ w.varNames) := by
  by_cases hc : a ∈ w.varNames ∧ b ∈ w.varNames
  · simp only [setDerived, if_pos hc]
    by_cases hn : name ∈ w.varNames
    · simp only [if_pos hn]
      constructor
      · exact fun h => Or.inl h
      · rintro (h | ⟨rfl, _⟩)
        · exact h
        · exact hn
    · simp only [if_neg hn, List.mem_append, List.mem_singleton]
      constructor
      · rintro (h | h)
        · exact Or.inl h
        · exact Or.inr ⟨h, hc⟩
      · rintro (h | ⟨rfl, _⟩)
        · exact Or.inl h
        · exact Or.inr rfl
  · simp only [setDerived, if_neg hc]
    constructor
    · exact fun h => Or.inl h
    · rintro (h | ⟨rfl, hc2⟩)
      · exact h
      · exact absurd hc2 hc

theorem setDerived_rows_length (w : WideDF) (name a b : String) (f : ℚ → ℚ → ℚ) :
    (setDerived w name a b f).rows.length = w.rows.length := by
  by_cases hc : a ∈ w.varNames ∧ b ∈ w.varNames <;> simp [setDerived, hc]

theorem getD_map_of_lt {α β : Type} (g : α → β) (l : List α) (i : Nat) (d : β)
    (d2 : α) (hi : i < l.length) : (l.map g).getD i d = g (l.getD i d2) := by
  rw [List.getD_eq_getElem l d2 hi,
    List.getD_eq_getElem (l.map g) d (by simpa using hi), List.getElem_map]

theorem setDerived_getD_fst (w : WideDF) (name a b : String) (f : ℚ → ℚ → ℚ)
    (i : Nat) (dflt : Key × List (String × Option ℚ)) (hi : i < w.rows.length) :
    ((setDerived w name a b f).rows.getD i dflt).1 = (w.rows.getD i dflt).1 := by
  by_cases hc : a ∈ w.varNames ∧ b ∈ w.varNames
  · simp only [setDerived, if_pos hc]
    rw [getD_map_of_lt _ w.rows i dflt dflt hi]
  · simp [setDerived, hc]

theorem setDerived_getD_rowCell_other (w : WideDF) (name a b : String)
    (f : ℚ → ℚ → ℚ) (i : Nat) (dflt : Key × List (String × Option ℚ)) (u : String)
    (hu : u ≠ name) (hi : i < w.rows.length) :
    rowCell ((setDerived w name a b f).rows.getD i dflt).2 u
      = rowCell (w.rows.getD i dflt).2 u := by
  by_cases hc : a ∈ w.varNames ∧ b ∈ w.varNames
  · simp only [setDerived, if_pos hc]
    rw [getD_map_of_lt _ w.rows i dflt dflt hi]
    rw [rowCell_setCell, if_neg (fun he => hu he.symm)]
  · simp [setDerived, hc]

theorem setDerived_getD_rowCell_self (w : WideDF) (name a b : String)
    (f : ℚ → ℚ → ℚ) (i : Nat) (dflt : Key × List (String × Option ℚ))
    (hc : a ∈ w.varNames ∧ b ∈ w.varNames) (hi : i < w.rows.length) :
    rowCell ((setDerived w name a b f).rows.getD i dflt).2 name
      = match rowCell (w.rows.getD i dflt).2 a, rowCell (w.rows.getD i dflt).2 b with
        | some x, some y => some (f x y)
        | _, _ => none := by
  simp only [setDerived, if_pos hc]
  rw [getD_map_of_lt _ w.rows i dflt dflt hi]
  rw [rowCell_setCell, if_pos rfl]

/-- C7.  `add_derived_climate_indices` adds each derived column exactly when
both of its inputs are present: aridity_index = pet / (ppt + 0.1),
water_balance = ppt − aet, temp_range = tmax − tmin, moisture_availability =
soil − def (each cell NaN when an input cell is NaN); every pre-existing
column survives, the row keys and count are unchanged, and every
pre-existing cell keeps its value. -/
theorem add_derived_climate_indices_spec (w : WideDF)
    (hfresh : ∀ n ∈ derivedNames, n ∉ w.varNames) :
    (("aridity_index" ∈ (add_derived_climate_indices w).varNames
        ↔ "pet" ∈ w.varNames ∧ "ppt" ∈ w.varNames)
      ∧ ("water_balance" ∈ (add_derived_climate_indices w).varNames
        ↔ "ppt" ∈ w.varNames ∧ "aet" ∈ w.varNames)
      ∧ ("temp_range" ∈ (add_derived_climate_indices w).varNames
        ↔ "tmax" ∈ w.varNames ∧ "tmin" ∈ w.varNames)
      ∧ ("moisture_availability" ∈ (add_derived_climate_indices w).varNames
        ↔ "soil" ∈ w.varNames ∧ "def" ∈ w.varNames))
    ∧ (∀ v ∈ w.varNames, v ∈ (add_derived_climate_indices w).varNames)
    ∧ (add_derived_climate_indices w).rows.length = w.rows.length
    ∧ (∀ i dflt, i < w.rows.length →
        ((add_derived_climate_indices w).rows.getD i dflt).1 = (w.rows.getD i dflt).1
        ∧ (∀ u, u ∉ derivedNames →
            rowCell ((add_derived_climate_indices w).rows.getD i dflt).2 u
              = rowCell (w.rows.getD i dflt).2 u)
        ∧ ("pet" ∈ w.varNames → "ppt" ∈ w.varNames →
            rowCell ((add_derived_climate_indices w).rows.getD i dflt).2 "aridity_index"
              = match rowCell (w.rows.getD i dflt).2 "pet",
                      rowCell (w.rows.getD i dflt).2 "ppt" with
                | some x, some y => some (x / (y + 1/10))
                | _, _ => none)
        ∧ ("ppt" ∈ w.varNames → "aet" ∈ w.varNames →
            rowCell ((add_derived_climate_indices w).rows.getD i dflt).2 "water_balance"
              = match rowCell (w.rows.getD i dflt).2 "ppt",
                      rowCell (w.rows.getD i dflt).2 "aet" with
                | some x, some y => some (x - y)
                | _, _ => none)
        ∧ ("tmax" ∈ w.varNames → "tmin" ∈ w.varNames →
            rowCell ((add_derived_climate_indices w).rows.getD i dflt).2 "temp_range"
              = match rowCell (w.rows.getD i dflt).2 "tmax",
                      rowCell (w.rows.getD i dflt).2 "tmin" with
                | some x, some y => some (x - y)
                | _, _ => none)
        ∧ ("soil" ∈ w.varNames → "def" ∈ w.varNames →
            rowCell ((add_derived_climate_indices w).rows.getD i dflt).2 "moisture_availability"
              = match rowCell (w.rows.getD i dflt).2 "soil",
                      rowCell (w.rows.getD i dflt).2 "def" with
                | some x, some y => some (x - y)
                | _, _ => none)) := by
  have hA : "aridity_index" ∉ w.varNames := hfresh _ (by simp [derivedNames])
  have hW : "water_balance" ∉ w.varNames := hfresh _ (by simp [derivedNames])
  have hT : "temp_range" ∉ w.varNames := hfresh _ (by simp [derivedNames])
  have hM : "moisture_availability" ∉ w.varNames := hfresh _ (by simp [derivedNames])
  set w1 := setDerived w "aridity_index" "pet" "ppt" (fun p q => p / (q + 1/10)) with hw1
  set w2 := setDerived w1 "water_balance" "ppt" "aet" (fun p q => p - q) with hw2
  set w3 := setDerived w2 "temp_range" "tmax" "tmin" (fun p q => p - q) with hw3
  have hadd : add_derived_climate_indices w
      = setDerived w3 "moisture_availability" "soil" "def" (fun p q => p - q) := rfl
  -- membership in the successive variable lists, for names distinct from the
  -- column each step adds
  have hm1 : ∀ v : String, v ≠ "aridity_index" → (v ∈ w1.varNames ↔ v ∈ w.varNames) := by
    intro v hv
    rw [hw1, mem_varNames_setDerived]
    constructor
    · rintro (h | ⟨he, _⟩)
      · exact h
      · exact absurd he hv
    · exact fun h => Or.inl h
  have hm2 : ∀ v : String, v ≠ "water_balance" → (v ∈ w2.varNames ↔ v ∈ w1.varNames) := by
    intro v hv
    rw [hw2, mem_varNames_setDerived]
    constructor
    · rintro (h | ⟨he, _⟩)
      · exact h
      · exact absurd he hv
    · exact fun h => Or.inl h
  have hm3 : ∀ v : String, v ≠ "temp_range" → (v ∈ w3.varNames ↔ v ∈ w2.varNames) := by
    intro v hv
    rw [hw3, mem_varNames_setDerived]
    constructor
    · rintro (h | ⟨he, _⟩)
      · exact h
      · exact absurd he hv
    · exact fun h => Or.inl h
  have hm4 : ∀ v : String, v ≠ "moisture_availability" →
      (v ∈ (add_derived_climate_indices w).varNames ↔ v ∈ w3.varNames) := by
    intro v hv
    rw [hadd, mem_varNames_setDerived]
    constructor
    · rintro (h | ⟨he, _⟩)
      · exact h
      · exact absurd he hv
    · exact fun h => Or.inl h
  -- the input columns of every step denote the same thing at every stage
  have hpet1 : ("pet" ∈ w1.varNames ↔ "pet" ∈ w.varNames) := hm1 _ (by decide)
  have hppt1 : ("ppt" ∈ w1.varNames ↔ "ppt" ∈ w.varNames) := hm1 _ (by decide)
  have haet1 : ("aet" ∈ w1.varNames ↔ "aet" ∈ w.varNames) := hm1 _ (by decide)
  have htmax2 : ("tmax" ∈ w2.varNames ↔ "tmax" ∈ w.varNames) :=
    (hm2 _ (by decide)).trans (hm1 _ (by decide))
  have htmin2 : ("tmin" ∈ w2.varNames ↔ "tmin" ∈ w.varNames) :=
    (hm2 _ (by decide)).trans (hm1 _ (by decide))
  have hsoil3 : ("soil" ∈ w3.varNames ↔ "soil" ∈ w.varNames) :=
    ((hm3 _ (by decide)).trans (hm2 _ (by decide))).trans (hm1 _ (by decide))
  have hdef3 : ("def" ∈ w3.varNames ↔ "def" ∈ w.varNames) :=
    ((hm3 _ (by decide)).trans (hm2 _ (by decide))).trans (hm1 _ (by decide))
  -- lengths
  have hlen1 : w1.rows.length = w.rows.length := setDerived_rows_length _ _ _ _ _
  have hlen2 : w2.rows.length = w1.rows.length := setDerived_rows_length _ _ _ _ _
  have hlen3 : w3.rows.length = w2.rows.length := setDerived_rows_length _ _ _ _ _
  have hlen4 : (add_derived_climate_indices w).rows.length = w3.rows.length := by
    rw [hadd]; exact setDerived_rows_length _ _ _ _ _
  refine ⟨⟨?_, ?_, ?_, ?_⟩, ?_, ?_, ?_⟩
  · rw [hm4 _ (by decide), hm3 _ (by decide), hm2 _ (by decide), hw1,
      mem_varNames_setDerived]
    constructor
    · rintro (h | ⟨_, hc⟩)
      · exact absurd h hA
      · exact hc
    · exact fun hc => Or.inr ⟨rfl, hc⟩
  · rw [hm4 _ (by decide), hm3 _ (by decide), hw2, mem_varNames_setDerived]
    constructor
    · rintro (h | ⟨_, hc⟩)
      · exact absurd ((hm1 _ (by decide)).mp h) hW
      · exact ⟨hppt1.mp hc.1, haet1.mp hc.2⟩
    · exact fun hc => Or.inr ⟨rfl, hppt1.mpr hc.1, haet1.mpr hc.2⟩
  · rw [hm4 _ (by decide), hw3, mem_varNames_setDerived]
    constructor
    · rintro (h | ⟨_, hc⟩)
      · exact absurd ((hm1 _ (by decide)).mp ((hm2 _ (by decide)).mp h)) hT
      · exact ⟨htmax2.mp hc.1, htmin2.mp hc.2⟩
    · exact fun hc => Or.inr ⟨rfl, htmax2.mpr hc.1, htmin2.mpr hc.2⟩
  · rw [hadd, mem_varNames_setDerived]
    constructor
    · rintro (h | ⟨_, hc⟩)
      · exact absurd ((hm1 _ (by decide)).mp ((hm2 _ (by decide)).mp
          ((hm3 _ (by decide)).mp h))) hM
      · exact ⟨hsoil3.mp hc.1, hdef3.mp hc.2⟩
    · exact fun hc => Or.inr ⟨rfl, hsoil3.mpr hc.1, hdef3.mpr hc.2⟩
  · intro v hv
    rw [hadd, mem_varNames_setDerived]
    refine Or.inl ?_
    rw [hm3 _ ?_, hm2 _ ?_, hm1 _ ?_]
    · exact hv
    all_goals
      intro he
      subst he
      revert hv
      first
        | exact fun hv => hA hv
        | exact fun hv => hW hv
        | exact fun hv => hT hv
  · rw [hlen4, hlen3, hlen2, hlen1]
  · intro i dflt hi
    have hi1 : i < w1.rows.length := by omega
    have hi2 : i < w2.rows.length := by omega
    have hi3 : i < w3.rows.length := by omega
    -- keys
    have hk4 : ((add_derived_climate_indices w).rows.getD i dflt).1
        = (w3.rows.getD i dflt).1 := by
      rw [hadd]; exact setDerived_getD_fst _ _ _ _ _ _ _ hi3
    have hk3 : (w3.rows.getD i dflt).1 = (w2.rows.getD i dflt).1 :=
      setDerived_getD_fst _ _ _ _ _ _ _ hi2
    have hk2 : (w2.rows.getD i dflt).1 = (w1.rows.getD i dflt).1 :=
      setDerived_getD_fst _ _ _ _ _ _ _ hi1
    have hk1 : (w1.rows.getD i dflt).1 = (w.rows.getD i dflt).1 :=
      setDerived_getD_fst _ _ _ _ _ _ _ hi
    -- cells of non-derived columns at the successive stages
    have hc1 : ∀ u : String, u ≠ "aridity_index" →
        rowCell (w1.rows.getD i dflt).2 u = rowCell (w.rows.getD i dflt).2 u :=
      fun u hu => setDerived_getD_rowCell_other _ _ _ _ _ _ _ _ hu hi
    have hc2 : ∀ u : String, u ≠ "water_balance" →
        rowCell (w2.rows.getD i dflt).2 u = rowCell (w1.rows.getD i dflt).2 u :=
      fun u hu => setDerived_getD_rowCell_other _ _ _ _ _ _ _ _ hu hi1
    have hc3 : ∀ u : String, u ≠ "temp_range" →
        rowCell (w3.rows.getD i dflt).2 u = rowCell (w2.rows.getD i dflt).2 u :=
      fun u hu => setDerived_getD_rowCell_other _ _ _ _ _ _ _ _ hu hi2
    have hc4 : ∀ u : String, u ≠ "moisture_availability" →
        rowCell ((add_derived_climate_indices w).rows.getD i dflt).2 u
          = rowCell (w3.rows.getD i dflt).2 u := by
      intro u hu
      rw [hadd]
      exact setDerived_getD_rowCell_other _ _ _ _ _ _ _ _ hu hi3
    refine ⟨by rw [hk4, hk3, hk2, hk1], ?_, ?_, ?_, ?_, ?_⟩
    · intro u hu
      have h1 : u ≠ "aridity_index" := fun he => hu (by rw [he]; simp [derivedNames])
      have h2 : u ≠ "water_balance" := fun he => hu (by rw [he]; simp [derivedNames])
      have h3 : u ≠ "temp_range" := fun he => hu (by rw [he]; simp [derivedNames])
      have h4 : u ≠ "moisture_availability" := fun he => hu (by rw [he]; simp [derivedNames])
      rw [hc4 u h4, hc3 u h3, hc2 u h2, hc1 u h1]
    · intro hpet hppt
      rw [hc4 _ (by decide), hc3 _ (by decide), hc2 _ (by decide), hw1,
        setDerived_getD_rowCell_self w _ _ _ _ i dflt ⟨hpet, hppt⟩ hi]
    · intro hppt haet
      rw [hc4 _ (by decide), hc3 _ (by decide), hw2,
        setDerived_getD_rowCell_self w1 _ _ _ _ i dflt
          ⟨hppt1.mpr hppt, haet1.mpr haet⟩ hi1,
        hc1 _ (by decide), hc1 _ (by decide)]
    · intro htmax htmin
      rw [hc4 _ (by decide), hw3,
        setDerived_getD_rowCell_self w2 _ _ _ _ i dflt
          ⟨htmax2.mpr htmax, htmin2.mpr htmin⟩ hi2,
        hc2 _ (by decide), hc1 _ (by decide), hc2 _ (by decide), hc1 _ (by decide)]
    · intro hsoil hdef
      rw [hadd,
        setDerived_getD_rowCell_self w3 _ _ _ _ i dflt
          ⟨hsoil3.mpr hsoil, hdef3.mpr hdef⟩ hi3,
        hc3 _ (by decide), hc2 _ (by decide), hc1 _ (by decide),
        hc3 _ (by decide), hc2 _ (by decide), hc1 _ (by decide)]

/-- Witness for C7 at the concrete one-row frame: ppt = 100, aet = 40 gives
water_balance = 60; tmax = 30, tmin = 10 gives temp_range = 20; pet = 50,
ppt = 100 gives aridity_index = 50 / 100.1 = 500/1001; soil = 7, def = 3
gives moisture_availability = 4. -/
theorem add_derived_climate_indices_spec_witness :
    rowCell ((add_derived_climate_indices sevenColRow).rows.getD 0 (("", 0, 0), [])).2
        "water_balance" = some 60
    ∧ rowCell ((add_derived_climate_indices sevenColRow).rows.getD 0 (("", 0, 0), [])).2
        "temp_range" = some 20
    ∧ rowCell ((add_derived_climate_indices sevenColRow).rows.getD 0 (("", 0, 0), [])).2
        "aridity_index" = some (500/1001)
    ∧ rowCell ((add_derived_climate_indices sevenColRow).rows.getD 0 (("", 0, 0), [])).2
        "moisture_availability" = some 4 := by
  obtain ⟨-, -, -, hrows⟩ := add_derived_climate_indices_spec sevenColRow (by decide)
  obtain ⟨-, -, hari, hwb, htr, hma⟩ := hrows 0 (("", 0, 0), []) (by decide)
  have hppt : rowCell (sevenColRow.rows.getD 0 (("", 0, 0), [])).2 "ppt" = some 100 := by
    decide
  have haet : rowCell (sevenColRow.rows.getD 0 (("", 0, 0), [])).2 "aet" = some 40 := by
    decide
  have htmx : rowCell (sevenColRow.rows.getD 0 (("", 0, 0), [])).2 "tmax" = some 30 := by
    decide
  have htmn : rowCell (sevenColRow.rows.getD 0 (("", 0, 0), [])).2 "tmin" = some 10 := by
    decide
  have hpet : rowCell (sevenColRow.rows.getD 0 (("", 0, 0), [])).2 "pet" = some 50 := by
    decide
  have hsoi : rowCell (sevenColRow.rows.getD 0 (("", 0, 0), [])).2 "soil" = some 7 := by
    decide
  have hdef : rowCell (sevenColRow.rows.getD 0 (("", 0, 0), [])).2 "def" = some 3 := by
    decide
  refine ⟨?_, ?_, ?_, ?_⟩
  · rw [hwb (by decide) (by decide), hppt, haet]
    norm_num
  · rw [htr (by decide) (by decide), htmx, htmn]
    norm_num
  · rw [hari (by decide) (by decide), hpet, hppt]
    norm_num
  · rw [hma (by decide) (by decide), hsoi, hdef]
    norm_num

theorem groupAgg_keys {G : Type} [DecidableEq G] (sf : List ℚ → Option ℚ)
    (df : WideDF) (vars : List String) (stats : List String) (keyOf : Key → G) :
    (groupAgg sf df vars stats keyOf).map (fun p => p.1)
      = (df.rows.map (fun r => keyOf r.1)).dedup := by
  simp [groupAgg, List.map_map, Function.comp_def]

theorem groupAgg_cells {G : Type} [DecidableEq G] (sf : List ℚ → Option ℚ)
    (df : WideDF) (vars : List String) (stats : List String) (keyOf : Key → G)
    (g : G) (cells : List (String × Option ℚ))
    (h : (g, cells) ∈ groupAgg sf df vars stats keyOf) :
    cells = vars.flatMap (fun v => stats.map (fun s =>
      (v ++ "_" ++ s,
       statEval sf s (colValues
         (df.rows.filter (fun r => decide (keyOf r.1 = g))) v)))) := by
  rcases List.mem_map.mp h with ⟨k, _, heq⟩
  have hg : k = g := congrArg Prod.fst heq
  have hc := congrArg Prod.snd heq
  simp only at hc
  rw [← hc, hg]

/-- C8 (amended).  `summary` aggregation yields exactly one row per
accession, each cell holding one of the statistics mean, std, min, max,
median of one variable over all of the point's time points; `annual` yields
one row per (point, year) and `seasonal` one row per (point, year, season),
but those two modes compute only mean, std, min and max within each group —
`median` appears only in summary mode. -/
theorem aggregation_rows_and_stats (sf : List ℚ → Option ℚ) (df : WideDF)
    (vars : List String) :
    ((compute_climate_summaries sf df vars).map (fun p => p.1)).Nodup
    ∧ (∀ a, a ∈ (compute_climate_summaries sf df vars).map (fun p => p.1)
        ↔ a ∈ df.rows.map (fun r => r.1.1))
    ∧ (∀ a cells, (a, cells) ∈ compute_climate_summaries sf df vars →
        cells = vars.flatMap (fun v =>
          (["mean", "std", "min", "max", "median"] : List String).map (fun s =>
            (v ++ "_" ++ s,
             statEval sf s (colValues
               (df.rows.filter (fun r => decide (r.1.1 = a))) v)))))
    ∧ (∃ annual, compute_temporal_aggregates sf df vars "year" = .ok annual
        ∧ (annual.map (fun p => p.1)).Nodup
        ∧ (∀ k : TemporalKey, k ∈ annual.map (fun p => p.1)
            ↔ k ∈ df.rows.map (fun r => (r.1.1, r.1.2.1, (none : Option String))))
        ∧ (∀ k cells, (k, cells) ∈ annual →
            cells = vars.flatMap (fun v =>
              (["mean", "std", "min", "max"] : List String).map (fun s =>
                (v ++ "_" ++ s,
                 statEval sf s (colValues (df.rows.filter (fun r =>
                   decide ((r.1.1, r.1.2.1, (none : Option String)) = k))) v))))))
    ∧ (∃ seasonal, compute_temporal_aggregates sf df vars "season" = .ok seasonal
        ∧ (seasonal.map (fun p => p.1)).Nodup
        ∧ (∀ k : TemporalKey, k ∈ seasonal.map (fun p => p.1)
            ↔ k ∈ df.rows.map (fun r => (r.1.1, r.1.2.1, some (season_map r.1.2.2))))
        ∧ (∀ k cells, (k, cells) ∈ seasonal →
            cells = vars.flatMap (fun v =>
              (["mean", "std", "min", "max"] : List String).map (fun s =>
                (v ++ "_" ++ s,
                 statEval sf s (colValues (df.rows.filter (fun r =>
                   decide ((r.1.1, r.1.2.1, some (season_map r.1.2.2)) = k))) v)))))) := by
  refine ⟨?_, ?_, ?_, ?_, ?_⟩
  · rw [compute_climate_summaries, groupAgg_keys]
    exact List.nodup_dedup _
  · intro a
    rw [compute_climate_summaries, groupAgg_keys]
    exact List.mem_dedup
  · intro a cells h
    exact groupAgg_cells sf df vars summaryStats (fun k => k.1) a cells h
  · refine ⟨groupAgg sf df vars temporalStats
      (fun k => (k.1, k.2.1, (none : Option String))), by simp [compute_temporal_aggregates], ?_, ?_, ?_⟩
    · rw [groupAgg_keys]
      exact List.nodup_dedup _
    · intro k
      rw [groupAgg_keys]
      exact List.mem_dedup
    · intro k cells h
      exact groupAgg_cells sf df vars temporalStats _ k cells h
  · refine ⟨groupAgg sf df vars temporalStats
      (fun k => (k.1, k.2.1, some (season_map k.2.2))), by simp [compute_temporal_aggregates], ?_, ?_, ?_⟩
    · rw [groupAgg_keys]
      exact List.nodup_dedup _
    · intro k
      rw [groupAgg_keys]
      exact List.mem_dedup
    · intro k cells h
      exact groupAgg_cells sf df vars temporalStats _ k cells h

/-- Counterexample to C8 as stated: on a one-variable frame with one
accession and two years, the `annual` aggregate's rows carry exactly the
columns tmax_mean, tmax_std, tmax_min, tmax_max — no tmax_median column,
although the claim asserts the median is computed in annual mode too. -/
theorem compute_temporal_aggregates_drops_median :
    (compute_temporal_aggregates (fun _ => none) twoYearFrame ["tmax"] "year").map
        (fun t => t.map (fun p => (p.1, p.2.map (fun c => c.1))))
      = .ok [(("CS1", 1958, none), ["tmax_mean", "tmax_std", "tmax_min", "tmax_max"]),
             (("CS1", 1959, none), ["tmax_mean", "tmax_std", "tmax_min", "tmax_max"])]
    ∧ (compute_climate_summaries (fun _ => none) twoYearFrame ["tmax"]).map
        (fun p => (p.1, p.2.map (fun c => c.1)))
      = [("CS1", ["tmax_mean", "tmax_std", "tmax_min", "tmax_max", "tmax_median"])] := by
  constructor <;> rfl

theorem lookupKey_cons (q : Key × ℚ) (rest : LongTable) (k : Key) :
    lookupKey (q :: rest) k = if q.1 = k then some q.2 else lookupKey rest k := by
  obtain ⟨qk, qv⟩ := q
  by_cases h : qk = k
  · simp [lookupKey, List.find?_cons_of_pos, h]
  · simp only [lookupKey]
    rw [List.find?_cons_of_neg]
    · simp [h]
    · simp [h]

theorem lookupKey_eq_none (t : LongTable) (k : Key)
    (h : k ∉ t.map (fun q => q.1)) : lookupKey t k = none := by
  induction t with
  | nil => rfl
  | cons q rest ih =>
    rw [lookupKey_cons]
    simp only [List.map_cons, List.mem_cons] at h
    push_neg at h
    rw [if_neg (fun he => h.1 he.symm), ih h.2]

theorem lookupKey_of_mem_nodup (t : LongTable) (k : Key) (x : ℚ)
    (hnd : (t.map (fun q => q.1)).Nodup) (hm : (k, x) ∈ t) :
    lookupKey t k = some x := by
  induction t with
  | nil => cases hm
  | cons q rest ih =>
    rw [lookupKey_cons]
    simp only [List.map_cons, List.nodup_cons] at hnd
    rcases List.mem_cons.mp hm with rfl | hmr
    · rw [if_pos rfl]
    · have hne : q.1 ≠ k := by
        intro he
        apply hnd.1
        rw [he]
        exact List.mem_map_of_mem (fun q => q.1) hmr
      rw [if_neg hne, ih hnd.2 hmr]

theorem lookupKey_isSome_of_mem (t : LongTable) (k : Key)
    (h : k ∈ t.map (fun q => q.1)) : ∃ x, lookupKey t k = some x := by
  induction t with
  | nil => cases h
  | cons q rest ih =>
    rw [lookupKey_cons]
    by_cases hq : q.1 = k
    · rw [if_pos hq]
      exact ⟨q.2, rfl⟩
    · rw [if_neg hq]
      refine ih ?_
      simp only [List.map_cons, List.mem_cons] at h
      rcases h with he | hm
      · exact absurd he.symm hq
      · exact hm

theorem rowCell_append_ne (c : List (String × Option ℚ)) (v : String) (x : Option ℚ)
    (u : String) (hu : u ≠ v) : rowCell (c ++ [(v, x)]) u = rowCell c u := by
  induction c with
  | nil =>
    rw [List.nil_append, rowCell_cons, if_neg (fun he => hu he.symm)]
  | cons p rest ih =>
    obtain ⟨pk, pv⟩ := p
    rw [List.cons_append, rowCell_cons, rowCell_cons, ih]

theorem rowCell_append_self (c : List (String × Option ℚ)) (v : String) (x : Option ℚ)
    (hv : v ∉ c.map (fun p => p.1)) : rowCell (c ++ [(v, x)]) v = x := by
  induction c with
  | nil => rw [List.nil_append, rowCell_cons, if_pos rfl]
  | cons p rest ih =>
    obtain ⟨pk, pv⟩ := p
    simp only [List.map_cons, List.mem_cons] at hv
    push_neg at hv
    rw [List.cons_append, rowCell_cons, if_neg (fun he => hv.1 he.symm), ih hv.2]

theorem rowCell_nones_mem (names : List String) (rest : List (String × Option ℚ))
    (u : String) (hu : u ∈ names) :
    rowCell ((names.map (fun n => (n, (none : Option ℚ)))) ++ rest) u = none := by
  induction names with
  | nil => cases hu
  | cons n ns ih =>
    rw [List.map_cons, List.cons_append, rowCell_cons]
    by_cases h : n = u
    · rw [if_pos h]
    · rw [if_neg h]
      refine ih ?_
      rcases List.mem_cons.mp hu with rfl | hm
      · exact absurd rfl h
      · exact hm

theorem rowCell_nones_skip (names : List String) (rest : List (String × Option ℚ))
    (u : String) (hu : u ∉ names) :
    rowCell ((names.map (fun n => (n, (none : Option ℚ)))) ++ rest) u
      = rowCell rest u := by
  induction names with
  | nil => rw [List.map_nil, List.nil_append]
  | cons n ns ih =>
    simp only [List.mem_cons] at hu
    push_neg at hu
    rw [List.map_cons, List.cons_append, rowCell_cons,
      if_neg (fun he => hu.1 he.symm), ih hu.2]

theorem rows_any_key (w : WideDF) (k : Key) :
    (w.rows.any (fun r => decide (r.1 = k))) = true ↔ k ∈ w.rows.map (fun r => r.1) := by
  rw [List.any_eq_true]
  constructor
  · rintro ⟨r, hr, hrk⟩
    rw [List.mem_map]
    exact ⟨r, hr, of_decide_eq_true hrk⟩
  · intro h
    rcases List.mem_map.mp h with ⟨r, hr, hrk⟩
    exact ⟨r, hr, decide_eq_true hrk⟩

theorem mergeOuter_keys (w : WideDF) (v : String) (t : LongTable) :
    (mergeOuter w v t).rows.map (fun r => r.1)
      = w.rows.map (fun r => r.1)
        ++ (t.filter (fun p => ! w.rows.any (fun r => decide (r.1 = p.1)))).map
            (fun p => p.1) := by
  simp [mergeOuter, List.map_append, List.map_map, Function.comp_def]

/-- One outer-join step preserves the merge invariant. -/
theorem mergeOuter_inv (inputs : List (String × LongTable)) (w : WideDF)
    (v : String) (t : LongTable) (hw : MergeInv inputs w)
    (ht : (t.map (fun q => q.1)).Nodup)
    (hv : v ∉ inputs.map (fun p => p.1)) :
    MergeInv (inputs ++ [(v, t)]) (mergeOuter w v t) := by
  obtain ⟨hvars, hnd, hkeys, hnames, hcells⟩ := hw
  have hvw : v ∉ w.varNames := by rw [hvars]; exact hv
  refine ⟨?_, ?_, ?_, ?_, ?_⟩
  · simp [mergeOuter, hvars]
  · rw [mergeOuter_keys, List.nodup_append]
    refine ⟨hnd, List.Nodup.sublist ((List.filter_sublist _).map _) ht, ?_⟩
    intro a ha hb
    rcases List.mem_map.mp hb with ⟨p, hpf, rfl⟩
    rw [List.mem_filter] at hpf
    have hne := hpf.2
    rw [Bool.not_eq_true'] at hne
    have htrue := (rows_any_key w p.1).mpr ha
    simp [htrue] at hne
  · intro k
    rw [mergeOuter_keys, List.mem_append]
    constructor
    · rintro (h | h)
      · rcases (hkeys k).mp h with ⟨p, hp, hk⟩
        exact ⟨p, by simp [hp], hk⟩
      · rcases List.mem_map.mp h with ⟨p, hpf, rfl⟩
        rw [List.mem_filter] at hpf
        exact ⟨(v, t), by simp, List.mem_map_of_mem (fun q => q.1) hpf.1⟩
    · rintro ⟨p, hp, hk⟩
      rcases List.mem_append.mp hp with hpi | hpv
      · exact Or.inl ((hkeys k).mpr ⟨p, hpi, hk⟩)
      · rcases List.mem_singleton.mp hpv with rfl
        by_cases hkw : k ∈ w.rows.map (fun r => r.1)
        · exact Or.inl hkw
        · refine Or.inr ?_
          rcases List.mem_map.mp hk with ⟨q, hq, rfl⟩
          refine List.mem_map_of_mem _ (List.mem_filter.mpr ⟨hq, ?_⟩)
          rw [Bool.not_eq_true']
          rw [← Bool.not_eq_true]
          intro hany
          exact hkw ((rows_any_key w q.1).mp hany)
  · intro pr hpr
    simp only [mergeOuter, List.mem_append] at hpr
    rcases hpr with h | h
    · rcases List.mem_map.mp h with ⟨r, hr, rfl⟩
      simp only [mergeOuter, List.map_append, hnames r hr]
      simp
    · rcases List.mem_map.mp h with ⟨p, hpf, rfl⟩
      simp only [mergeOuter, List.map_append, List.map_map, Function.comp_def]
      simp
  · intro pr hpr p hp
    simp only [mergeOuter, List.mem_append] at hpr
    rcases hpr with h | h
    · rcases List.mem_map.mp h with ⟨r, hr, rfl⟩
      rcases List.mem_append.mp hp with hpi | hpv
      · have hne : p.1 ≠ v := fun he =>
          hv (he ▸ List.mem_map_of_mem (fun p => p.1) hpi)
        rw [rowCell_append_ne _ _ _ _ hne]
        exact hcells r hr p hpi
      · rcases List.mem_singleton.mp hpv with rfl
        have hvnames : v ∉ r.2.map (fun c => c.1) := by
          rw [hnames r hr]; exact hvw
        rw [rowCell_append_self _ _ _ hvnames]
    · rcases List.mem_map.mp h with ⟨q, hqf, rfl⟩
      rw [List.mem_filter] at hqf
      rcases List.mem_append.mp hp with hpi | hpv
      · have hp1 : p.1 ∈ w.varNames := by
          rw [hvars]; exact List.mem_map_of_mem (fun p => p.1) hpi
        rw [rowCell_nones_mem w.varNames _ _ hp1]
        have hnotw : q.1 ∉ w.rows.map (fun r => r.1) := by
          intro hmem
          have hany := (rows_any_key w q.1).mpr hmem
          simp [hany] at hqf
        have hnone : ¬ ∃ pp ∈ inputs, q.1 ∈ pp.2.map (fun q2 => q2.1) := by
          rw [← hkeys q.1]; exact hnotw
        push_neg at hnone
        rw [lookupKey_eq_none _ _ (hnone p hpi)]
      · rcases List.mem_singleton.mp hpv with rfl
        rw [rowCell_nones_skip _ _ _ hvw, rowCell_cons, if_pos rfl]
        exact (lookupKey_of_mem_nodup t q.1 q.2 ht hqf.1).symm

/-- The whole merge fold preserves the invariant. -/
theorem mergeFold_inv :
    ∀ (rest : List (String × LongTable)) (inputs : List (String × LongTable))
      (w : WideDF), MergeInv inputs w →
      (∀ p ∈ rest, (p.2.map (fun q => q.1)).Nodup) →
      ((inputs ++ rest).map (fun p => p.1)).Nodup →
      MergeInv (inputs ++ rest) (rest.foldl (fun w p => mergeOuter w p.1 p.2) w) := by
  intro rest
  induction rest with
  | nil =>
    intro inputs w hw _ _
    simpa using hw
  | cons p rest2 ih =>
    intro inputs w hw hkeys hnd
    have hv : p.1 ∉ inputs.map (fun q => q.1) := by
      intro hmem
      rw [List.map_append] at hnd
      exact (List.nodup_append.mp hnd).2.2 hmem (by simp)
    have hw2 : MergeInv (inputs ++ [p]) (mergeOuter w p.1 p.2) :=
      mergeOuter_inv inputs w p.1 p.2 hw (hkeys p (by simp)) hv
    have hres := ih (inputs ++ [p]) (mergeOuter w p.1 p.2) hw2
      (fun q hq => hkeys q (by simp [hq]))
      (by simpa [List.append_assoc] using hnd)
    simpa [List.append_assoc] using hres

/-- The initial frame of the merge (the first variable's table alone)
satisfies the invariant. -/
theorem mergeInit_inv (first : String × LongTable)
    (hnd : (first.2.map (fun q => q.1)).Nodup) :
    MergeInv [first]
      { varNames := [first.1],
        rows := first.2.map (fun p => (p.1, [(first.1, some p.2)])) } := by
  refine ⟨by simp, ?_, ?_, ?_, ?_⟩
  · simpa [List.map_map, Function.comp_def] using hnd
  · intro k
    simp [List.map_map, Function.comp_def]
  · intro pr hpr
    rcases List.mem_map.mp hpr with ⟨q, hq, rfl⟩
    simp
  · intro pr hpr p hp
    rcases List.mem_map.mp hpr with ⟨q, hq, rfl⟩
    have hpe := List.mem_singleton.mp hp
    rw [hpe]
    rw [rowCell_cons, if_pos rfl]
    exact (lookupKey_of_mem_nodup first.2 q.1 q.2 hnd hq).symm

/-- C6.  The wide merge of a nonempty family of per-variable long tables
(pairwise distinct variable names, per-table unique keys) is a full outer
join: its columns are the variable names in order, its row keys are exactly
the union of the input key sets with no duplicate rows, and the cell of row
k in column v equals table v's value at k — in particular a key present only
in variable A's table carries A's value in column A and a missing value in
every other variable's column, and no key is excluded for being absent from
some variable. -/
theorem merge_variables_wide_format_outer_join (first : String × LongTable)
    (rest : List (String × LongTable))
    (hkeys : ∀ p ∈ first :: rest, (p.2.map (fun q => q.1)).Nodup)
    (hvars : ((first :: rest).map (fun p => p.1)).Nodup) :
    (merge_variables_wide_format first rest).varNames
        = (first :: rest).map (fun p => p.1)
    ∧ ((merge_variables_wide_format first rest).rows.map (fun r => r.1)).Nodup
    ∧ (∀ k : Key, k ∈ (merge_variables_wide_format first rest).rows.map (fun r => r.1)
        ↔ ∃ p ∈ first :: rest, k ∈ p.2.map (fun q => q.1))
    ∧ (∀ pr ∈ (merge_variables_wide_format first rest).rows, ∀ p ∈ first :: rest,
        rowCell pr.2 p.1 = lookupKey p.2 pr.1)
    ∧ (∀ pr ∈ (merge_variables_wide_format first rest).rows, ∀ p ∈ first :: rest,
        pr.1 ∉ p.2.map (fun q => q.1) → rowCell pr.2 p.1 = none)
    ∧ (∀ pr ∈ (merge_variables_wide_format first rest).rows, ∀ p ∈ first :: rest,
        ∀ x : ℚ, (pr.1, x) ∈ p.2 → rowCell pr.2 p.1 = some x) := by
  have hinv := mergeFold_inv rest [first]
    { varNames := [first.1],
      rows := first.2.map (fun p => (p.1, [(first.1, some p.2)])) }
    (mergeInit_inv first (hkeys first (by simp)))
    (fun p hp => hkeys p (by simp [hp]))
    (by simpa using hvars)
  rw [List.singleton_append] at hinv
  obtain ⟨h1, h2, h3, _, h5⟩ := hinv
  refine ⟨h1, h2, h3, h5, ?_, ?_⟩
  · intro pr hpr p hp habs
    rw [h5 pr hpr p hp, lookupKey_eq_none _ _ habs]
  · intro pr hpr p hp x hx
    rw [h5 pr hpr p hp, lookupKey_of_mem_nodup _ _ _ (hkeys p hp) hx]

/-- Witness for C6 on the concrete pair of tables: the merged key set is the
union of the two key sets, and every present value is carried into its
column. -/
theorem merge_variables_wide_format_outer_join_witness :
    (∀ k : Key,
        k ∈ (merge_variables_wide_format ("tmax", tmaxTable) [("ppt", pptTable)]).rows.map
            (fun r => r.1)
          ↔ ∃ p ∈ ("tmax", tmaxTable) :: [("ppt", pptTable)],
              k ∈ p.2.map (fun q => q.1))
    ∧ (∀ pr ∈ (merge_variables_wide_format ("tmax", tmaxTable) [("ppt", pptTable)]).rows,
        ∀ p ∈ ("tmax", tmaxTable) :: [("ppt", pptTable)],
          pr.1 ∉ p.2.map (fun q => q.1) → rowCell pr.2 p.1 = none)
    ∧ (∀ pr ∈ (merge_variables_wide_format ("tmax", tmaxTable) [("ppt", pptTable)]).rows,
        ∀ p ∈ ("tmax", tmaxTable) :: [("ppt", pptTable)],
          ∀ x : ℚ, (pr.1, x) ∈ p.2 → rowCell pr.2 p.1 = some x) :=
  ⟨(merge_variables_wide_format_outer_join ("tmax", tmaxTable) [("ppt", pptTable)]
      (by decide) (by decide)).2.2.1,
   (merge_variables_wide_format_outer_join ("tmax", tmaxTable) [("ppt", pptTable)]
      (by decide) (by decide)).2.2.2.2.1,
   (merge_variables_wide_format_outer_join ("tmax", tmaxTable) [("ppt", pptTable)]
      (by decide) (by decide)).2.2.2.2.2⟩

end TerraClimate
